import Mathlib

/-!
Shallow embedding of the Wa-Tor simulation (wator.go).

The Go program keeps six package-level arrays: the current generation
(`grid`, `breedTimer`, `starveTimer`) and the next-generation write buffers
(`buffer`, `bufferBreed`, `bufferStarve`).  Cell values are 0 (empty),
1 (fish), 2 (shark).  `update()` clears the buffers, scans every cell
(tile by tile; with one worker this is row-major order on x then y),
applies the fish/shark step to each occupied cell, and finally swaps the
current arrays with the buffers — without clearing anything at swap time.

We embed the per-cell step and the whole tick as pure functions on a state
record whose six fields mirror the six arrays.  Grids are total functions
`Nat → Nat → _`; the simulation only ever reads and writes coordinates
produced by toroidal wrapping, which always lie in range.  The per-agent
random shuffle of the four scan directions is a parameter: a function
giving, for each cell, the direction list used if that cell acts this tick.
-/

/-- The tunable package variables `fishBreed`, `sharkBreed`, `sharkStarve`
(Go `int`s). -/
structure Config where
  fishBreed : Int
  sharkBreed : Int
  sharkStarve : Int
deriving DecidableEq

/-- The six package-level arrays of wator.go: current generation
(`grid`, `breedT`, `starveT`) and write buffers (`buf`, `bufBreed`,
`bufStarve`).  Grid values: 0 empty, 1 fish, 2 shark. -/
structure Sim where
  grid : Nat → Nat → Nat
  breedT : Nat → Nat → Int
  starveT : Nat → Nat → Int
  buf : Nat → Nat → Nat
  bufBreed : Nat → Nat → Int
  bufStarve : Nat → Nat → Int

/-- Point update of a two-argument function (one array store `a[x][y] = v`). -/
def upd2 {α : Type} (f : Nat → Nat → α) (x y : Nat) (v : α) : Nat → Nat → α :=
  fun a b => if a = x ∧ b = y then v else f a b

/-- Toroidal wrap: Go's `(a + d + n) % n` for a coordinate `a`, offset `d`
and dimension `n` (the dividend is nonnegative, so Go `%` agrees with
`Int.emod`). -/
def wrapAdd (n : Nat) (a : Nat) (d : Int) : Nat :=
  ((Int.ofNat a + d + Int.ofNat n) % Int.ofNat n).toNat

/-- The four orthogonal scan directions in their unshuffled source order. -/
def baseDirs : List (Int × Int) := [(-1, 0), (1, 0), (0, -1), (0, 1)]

/-- Fish scan loop (wator.go lines 178-227): try each direction in order;
claim the first neighbor empty in both `grid` and `buf` (breed if
`newBreed ≤ 0`, else move); if none was claimed, write the fish back in
place with its timer clamped at 0, provided its own buffer slot is free. -/
def fishScan (cfg : Config) (w h x y : Nat) (newBreed : Int) :
    List (Int × Int) → Sim → Sim
  | [], s =>
      if s.buf x y = 0 then
        { s with buf := upd2 s.buf x y 1,
                 bufBreed := upd2 s.bufBreed x y
                   (if newBreed < 0 then 0 else newBreed) }
      else s
  | d :: rest, s =>
      let nx := wrapAdd w x d.1
      let ny := wrapAdd h y d.2
      if s.grid nx ny = 0 ∧ s.buf nx ny = 0 then
        if newBreed ≤ 0 then
          let s1 :=
            if s.buf x y = 0 then
              { s with buf := upd2 s.buf x y 1,
                       bufBreed := upd2 s.bufBreed x y cfg.fishBreed }
            else s
          { s1 with buf := upd2 s1.buf nx ny 1,
                    bufBreed := upd2 s1.bufBreed nx ny cfg.fishBreed }
        else
          { s with buf := upd2 s.buf nx ny 1,
                   bufBreed := upd2 s.bufBreed nx ny newBreed }
      else fishScan cfg w h x y newBreed rest s

/-- Shark eat pass (wator.go lines 241-281): first neighbor holding a fish
in the current grid whose buffer slot is free is eaten — the fish is
removed from the *current* grid, `newStarve` resets to `sharkStarve`, and
the shark is written into that cell (breeding if `newBreed ≤ 0`).  Returns
`some` of the new state on success, `none` when no fish was eaten. -/
def sharkEatScan (cfg : Config) (w h x y : Nat) (newBreed : Int) :
    List (Int × Int) → Sim → Option Sim
  | [], _ => none
  | d :: rest, s =>
      let nx := wrapAdd w x d.1
      let ny := wrapAdd h y d.2
      if s.grid nx ny = 1 ∧ s.buf nx ny = 0 then
        let s0 := { s with grid := upd2 s.grid nx ny 0 }
        if newBreed ≤ 0 then
          let s1 :=
            if s0.buf x y = 0 then
              { s0 with buf := upd2 s0.buf x y 2,
                        bufBreed := upd2 s0.bufBreed x y cfg.sharkBreed,
                        bufStarve := upd2 s0.bufStarve x y cfg.sharkStarve }
            else s0
          some { s1 with buf := upd2 s1.buf nx ny 2,
                         bufBreed := upd2 s1.bufBreed nx ny cfg.sharkBreed,
                         bufStarve := upd2 s1.bufStarve nx ny cfg.sharkStarve }
        else
          some { s0 with buf := upd2 s0.buf nx ny 2,
                         bufBreed := upd2 s0.bufBreed nx ny newBreed,
                         bufStarve := upd2 s0.bufStarve nx ny cfg.sharkStarve }
      else sharkEatScan cfg w h x y newBreed rest s

/-- Shark move pass (wator.go lines 285-325), run only when no fish was
eaten: first neighbor empty in both grid and buffer is handled — if
`newStarve ≤ 0` the shark dies there (nothing is written), else it breeds
or moves exactly like a fish, carrying `newStarve`. -/
def sharkMoveScan (cfg : Config) (w h x y : Nat) (newBreed newStarve : Int) :
    List (Int × Int) → Sim → Option Sim
  | [], _ => none
  | d :: rest, s =>
      let nx := wrapAdd w x d.1
      let ny := wrapAdd h y d.2
      if s.grid nx ny = 0 ∧ s.buf nx ny = 0 then
        if newStarve ≤ 0 then
          some s
        else if newBreed ≤ 0 then
          let s1 :=
            if s.buf x y = 0 then
              { s with buf := upd2 s.buf x y 2,
                       bufBreed := upd2 s.bufBreed x y cfg.sharkBreed,
                       bufStarve := upd2 s.bufStarve x y cfg.sharkStarve }
            else s
          some { s1 with buf := upd2 s1.buf nx ny 2,
                         bufBreed := upd2 s1.bufBreed nx ny cfg.sharkBreed,
                         bufStarve := upd2 s1.bufStarve nx ny newStarve }
        else
          some { s with buf := upd2 s.buf nx ny 2,
                        bufBreed := upd2 s.bufBreed nx ny newBreed,
                        bufStarve := upd2 s.bufStarve nx ny newStarve }
      else sharkMoveScan cfg w h x y newBreed newStarve rest s

/-- Shark fallback (wator.go lines 328-346): nothing was handled — die if
`newStarve ≤ 0` (no write), else write the shark back in place (timer
clamped at 0) provided its own buffer slot is free. -/
def sharkStay (x y : Nat) (newBreed newStarve : Int) (s : Sim) : Sim :=
  if newStarve ≤ 0 then s
  else if s.buf x y = 0 then
    { s with buf := upd2 s.buf x y 2,
             bufBreed := upd2 s.bufBreed x y
               (if newBreed < 0 then 0 else newBreed),
             bufStarve := upd2 s.bufStarve x y newStarve }
  else s

/-- One cell of the worker loop body (wator.go lines 166-348): fish act via
`fishScan`, sharks via the eat pass, then the move pass, then the
stay-or-die fallback; empty cells do nothing.  `dirs` is this agent's
shuffled direction list. -/
def stepCell (cfg : Config) (w h : Nat) (dirs : List (Int × Int))
    (x y : Nat) (s : Sim) : Sim :=
  if s.grid x y = 1 then
    fishScan cfg w h x y (s.breedT x y - 1) dirs s
  else if s.grid x y = 2 then
    match sharkEatScan cfg w h x y (s.breedT x y - 1) dirs s with
    | some s' => s'
    | none =>
        match sharkMoveScan cfg w h x y (s.breedT x y - 1)
            (s.starveT x y - 1) dirs s with
        | some s' => s'
        | none => sharkStay x y (s.breedT x y - 1) (s.starveT x y - 1) s
  else s

/-- Run `stepCell` over a list of cells in order; `dc` supplies each
agent's shuffled direction list. -/
def scanCells (cfg : Config) (w h : Nat)
    (dc : Nat → Nat → List (Int × Int)) :
    List (Nat × Nat) → Sim → Sim
  | [], s => s
  | p :: rest, s =>
      scanCells cfg w h dc rest (stepCell cfg w h (dc p.1 p.2) p.1 p.2 s)

/-- All grid cells in the order a single worker scans them: x outer,
y inner (wator.go lines 166-167 with one tile covering the grid). -/
def cellList (w h : Nat) : List (Nat × Nat) :=
  (List.range w).flatMap fun x => (List.range h).map fun y => (x, y)

/-- Buffer clearing at the start of `update` (wator.go lines 78-84). -/
def clearBuffers (s : Sim) : Sim :=
  { s with buf := fun _ _ => 0,
           bufBreed := fun _ _ => 0,
           bufStarve := fun _ _ => 0 }

/-- The tick-ending swap (wator.go lines 357-367): current arrays and
buffers exchange wholesale; nothing is cleared here. -/
def swapBuffers (s : Sim) : Sim :=
  { grid := s.buf, breedT := s.bufBreed, starveT := s.bufStarve,
    buf := s.grid, bufBreed := s.breedT, bufStarve := s.starveT }

/-- One call to `update()` (sequentialized single-worker semantics):
clear the buffers, scan every cell, swap. -/
def tick (cfg : Config) (w h : Nat)
    (dc : Nat → Nat → List (Int × Int)) (s : Sim) : Sim :=
  swapBuffers (scanCells cfg w h dc (cellList w h) (clearBuffers s))

/-! ## Tile partition (wator.go lines 94-104 and 145-160) -/

/-- `tileCols = int(math.Sqrt(threads))`, forced to at least 1. -/
def tileCols (threads : Nat) : Nat := max 1 (Nat.sqrt threads)

/-- `tileRows = ceil(threads / tileCols)`, forced to at least 1. -/
def tileRows (threads : Nat) : Nat :=
  max 1 ((threads + tileCols threads - 1) / tileCols threads)

/-- `tileW = ceil(width / tileCols)`. -/
def tileW (w threads : Nat) : Nat :=
  (w + tileCols threads - 1) / tileCols threads

/-- `tileH = ceil(height / tileRows)`. -/
def tileH (h threads : Nat) : Nat :=
  (h + tileRows threads - 1) / tileRows threads

/-- Bounds of tile `(tx, ty)`: `[startX, endX) × [startY, endY)` with the
end clamped to the grid (wator.go lines 147-156). -/
def tileBounds (w h threads tx ty : Nat) : (Nat × Nat) × (Nat × Nat) :=
  ((tx * tileW w threads, min (tx * tileW w threads + tileW w threads) w),
   (ty * tileH h threads, min (ty * tileH h threads + tileH h threads) h))

/-- A tile is kept only when it covers a nonzero area (wator.go line 158:
tiles with `startX >= endX || startY >= endY` are skipped). -/
abbrev tileKept (w h threads tx ty : Nat) : Prop :=
  (tileBounds w h threads tx ty).1.1 < (tileBounds w h threads tx ty).1.2 ∧
  (tileBounds w h threads tx ty).2.1 < (tileBounds w h threads tx ty).2.2

/-- The kept tiles, as index pairs `(tx, ty)`. -/
def tileSet (w h threads : Nat) : Finset (Nat × Nat) :=
  (Finset.range (tileCols threads) ×ˢ Finset.range (tileRows threads)).filter
    fun t => tileKept w h threads t.1 t.2

/-- Cell `(x, y)` lies inside tile `(tx, ty)`. -/
abbrev cellInTile (w h threads tx ty x y : Nat) : Prop :=
  (tileBounds w h threads tx ty).1.1 ≤ x ∧
  x < (tileBounds w h threads tx ty).1.2 ∧
  (tileBounds w h threads tx ty).2.1 ≤ y ∧
  y < (tileBounds w h threads tx ty).2.2

/-! ## Tile locks (wator.go lines 113-142) -/

/-- The global tile ID used for lock ordering: `tileCol * tileRows + tileRow`. -/
def tileID (tRows tx ty : Nat) : Nat := tx * tRows + ty

/-- The sequence of tile IDs `lockTwo(ax, ay, bx, b_y)` locks, in
acquisition order. -/
def lockTwoOrder (tRows ax ay bx b_y : Nat) : List Nat :=
  if tileID tRows ax ay = tileID tRows bx b_y then [tileID tRows ax ay]
  else if tileID tRows ax ay < tileID tRows bx b_y then
    [tileID tRows ax ay, tileID tRows bx b_y]
  else [tileID tRows bx b_y, tileID tRows ax ay]

/-- The sequence of tile IDs `unlockTwo(ax, ay, bx, b_y)` releases, in
release order. -/
def unlockTwoOrder (tRows ax ay bx b_y : Nat) : List Nat :=
  if tileID tRows ax ay = tileID tRows bx b_y then [tileID tRows ax ay]
  else if tileID tRows ax ay < tileID tRows bx b_y then
    [tileID tRows bx b_y, tileID tRows ax ay]
  else [tileID tRows ax ay, tileID tRows bx b_y]

/-! ## World initialization (wator.go lines 418-452) -/

/-- One successful placement: store the agent value and its breed timer,
and (for sharks) its starve timer, at the picked cell. -/
def placeWrite (v : Nat) (bt : Int) (st : Option Int) (pk : Nat × Nat)
    (s : Sim) : Sim :=
  { s with grid := upd2 s.grid pk.1 pk.2 v,
           breedT := upd2 s.breedT pk.1 pk.2 bt,
           starveT :=
             match st with
             | some stv => upd2 s.starveT pk.1 pk.2 stv
             | none => s.starveT }

/-- The rejection-sampling placement loop: consume random picks until
`need` agents of value `v` (with breed timer `bt`, and starve timer from
`st` when given) have been placed on empty cells; a pick hitting an
occupied cell is retried (`i--` in the source).  Returns the new state and
the unconsumed picks, or `none` when the pick stream runs out first. -/
def placeLoop (v : Nat) (bt : Int) (st : Option Int) :
    Nat → List (Nat × Nat) → Sim → Option (Sim × List (Nat × Nat))
  | 0, picks, s => some (s, picks)
  | _ + 1, [], _ => none
  | need + 1, p :: rest, s =>
      if s.grid p.1 p.2 = 0 then
        placeLoop v bt st need rest (placeWrite v bt st p s)
      else placeLoop v bt st (need + 1) rest s

/-- The clearing phase of `initWorld()` (wator.go lines 420-426): grid and
both current timer arrays are zeroed; buffers are untouched. -/
def clearWorld (s : Sim) : Sim :=
  { s with grid := fun _ _ => 0,
           breedT := fun _ _ => 0,
           starveT := fun _ _ => 0 }

/-- `initWorld()`: clear grid and timers, then place `numFish` fish
(breed timer `fishBreed`) and `numShark` sharks (timers `sharkBreed`,
`sharkStarve`) by rejection sampling.  The Go loops `for i := 0; i < n`
with `i--` on collision perform `max n 0` successful placements, so
negative counts place nothing.  `picks` models the stream of
`rand.Intn` coordinate pairs. -/
def initWorldModel (cfg : Config) (numFish numShark : Int)
    (picks : List (Nat × Nat)) (s : Sim) : Option Sim :=
  match placeLoop 1 cfg.fishBreed none numFish.toNat picks
      (clearWorld s) with
  | none => none
  | some (s1, rest) =>
      match placeLoop 2 cfg.sharkBreed (some cfg.sharkStarve)
          numShark.toNat rest s1 with
      | none => none
      | some (s2, _) => some s2

/-- Number of cells of the `w × h` grid holding value `v`. -/
def countCells (w h : Nat) (s : Sim) (v : Nat) : Nat :=
  (cellList w h).countP fun p => s.grid p.1 p.2 = v

/-! ## Concrete instances used by counterexamples and witnesses -/

/-- The default package values of wator.go: `fishBreed = 3`,
`sharkBreed = 8`, `sharkStarve = 3`. -/
def cfg0 : Config := ⟨3, 8, 3⟩

/-- Direction chooser giving every agent the unshuffled source order. -/
def dc0 : Nat → Nat → List (Int × Int) := fun _ _ => baseDirs

/-- A 2×2 world holding a single fish at (0,0) with breed timer 2. -/
def simFish22 : Sim :=
  { grid := fun a b => if a = 0 ∧ b = 0 then 1 else 0,
    breedT := fun a b => if a = 0 ∧ b = 0 then 2 else 0,
    starveT := fun _ _ => 0,
    buf := fun _ _ => 0,
    bufBreed := fun _ _ => 0,
    bufStarve := fun _ _ => 0 }

/-- A 2×2 world with a fish at (0,1) and an already-claimed write-buffer
cell at (0,0) (holding a shark), used to witness first-claim-wins. -/
def simMark : Sim :=
  { grid := fun a b => if a = 0 ∧ b = 1 then 1 else 0,
    breedT := fun a b => if a = 0 ∧ b = 1 then 1 else 0,
    starveT := fun _ _ => 0,
    buf := fun a b => if a = 0 ∧ b = 0 then 2 else 0,
    bufBreed := fun a b => if a = 0 ∧ b = 0 then 8 else 0,
    bufStarve := fun a b => if a = 0 ∧ b = 0 then 3 else 0 }

/-- A 2×2 world holding a single shark at (0,0) with starve timer 1. -/
def simStarvedShark : Sim :=
  { grid := fun a b => if a = 0 ∧ b = 0 then 2 else 0,
    breedT := fun a b => if a = 0 ∧ b = 0 then 5 else 0,
    starveT := fun a b => if a = 0 ∧ b = 0 then 1 else 0,
    buf := fun _ _ => 0,
    bufBreed := fun _ _ => 0,
    bufStarve := fun _ _ => 0 }

/-- A 2×2 world with a single fish at (0,0) whose breed timer is 1 (so it
breeds on its next move). -/
def simFishBreed : Sim :=
  { grid := fun a b => if a = 0 ∧ b = 0 then 1 else 0,
    breedT := fun a b => if a = 0 ∧ b = 0 then 1 else 0,
    starveT := fun _ _ => 0,
    buf := fun _ _ => 0,
    bufBreed := fun _ _ => 0,
    bufStarve := fun _ _ => 0 }

/-- Per-cell write specification for one tick's scan: each buffer cell is
either left completely untouched or has been written non-Empty; a written
cell carries a nonnegative breed timer (when the three configured timers
are nonnegative) and a starve timer that is either untouched or
nonnegative. -/
def CellSpec (cfg : Config) (s res : Sim) (p q : Nat) : Prop :=
  (res.buf p q = s.buf p q ∧ res.bufBreed p q = s.bufBreed p q ∧
    res.bufStarve p q = s.bufStarve p q) ∨
  (res.buf p q ≠ 0 ∧
    (0 ≤ cfg.fishBreed → 0 ≤ cfg.sharkBreed → 0 ≤ cfg.sharkStarve →
      0 ≤ res.bufBreed p q ∧
      (res.bufStarve p q = s.bufStarve p q ∨ 0 ≤ res.bufStarve p q)))

/-- The world produced by the concrete `initWorldModel` run used in the
C10 witness (one fish at (0,0), one shark at (1,1) on the 2×2 grid). -/
def s1w : Sim :=
  (initWorldModel cfg0 1 1 [(0, 0), (1, 1)] simFish22).getD simFish22

/-- The 4×4 scenario world of the spec: a shark at (1,1) with starve timer
1 and breed timer `b`, a fish at (1,2), everything else Empty. -/
def simSharkFish (b : Int) : Sim :=
  { grid := fun a c => if a = 1 ∧ c = 1 then 2
      else if a = 1 ∧ c = 2 then 1 else 0,
    breedT := fun a c => if a = 1 ∧ c = 1 then b
      else if a = 1 ∧ c = 2 then 1 else 0,
    starveT := fun a c => if a = 1 ∧ c = 1 then 1 else 0,
    buf := fun _ _ => 0,
    bufBreed := fun _ _ => 0,
    bufStarve := fun _ _ => 0 }

/-- The state right after the scenario shark (breed timer `b ≥ 2`) eats
the fish at (1,2): the fish is deleted from the current grid, and the
shark is written into (1,2) with breed timer `b - 1` and starve timer
reset to `sharkStarve`. -/
def eatRes (cfg : Config) (b : Int) : Sim :=
  { grid := upd2 (simSharkFish b).grid 1 2 0,
    breedT := (simSharkFish b).breedT,
    starveT := (simSharkFish b).starveT,
    buf := upd2 (simSharkFish b).buf 1 2 2,
    bufBreed := upd2 (simSharkFish b).bufBreed 1 2 (b - 1),
    bufStarve := upd2 (simSharkFish b).bufStarve 1 2 cfg.sharkStarve }

/-! ## Helper lemmas -/

theorem upd2_ne {α : Type} (f : Nat → Nat → α) (x y p q : Nat) (v : α)
    (h : ¬(p = x ∧ q = y)) : upd2 f x y v p q = f p q := by
  simp [upd2, h]

theorem upd2_self {α : Type} (f : Nat → Nat → α) (x y : Nat) (v : α) :
    upd2 f x y v x y = v := by
  simp [upd2]

theorem fishScan_buf_mono (cfg : Config) (w h x y : Nat) (nb : Int)
    (p q : Nat) (dirs : List (Int × Int)) :
    ∀ (s : Sim), s.buf p q ≠ 0 →
      (fishScan cfg w h x y nb dirs s).buf p q = s.buf p q ∧
      (fishScan cfg w h x y nb dirs s).bufBreed p q = s.bufBreed p q ∧
      (fishScan cfg w h x y nb dirs s).bufStarve p q = s.bufStarve p q := by
  induction dirs with
  | nil =>
      intro s hpq
      by_cases hxy : s.buf x y = 0
      · have hne : ¬(p = x ∧ q = y) := by
          rintro ⟨rfl, rfl⟩; exact hpq hxy
        simp [fishScan, hxy, upd2_ne _ _ _ _ _ _ hne]
      · simp [fishScan, hxy]
  | cons d rest ih =>
      intro s hpq
      by_cases hg : s.grid (wrapAdd w x d.1) (wrapAdd h y d.2) = 0 ∧
          s.buf (wrapAdd w x d.1) (wrapAdd h y d.2) = 0
      · have hnen : ¬(p = wrapAdd w x d.1 ∧ q = wrapAdd h y d.2) := by
          rintro ⟨rfl, rfl⟩; exact hpq hg.2
        by_cases hb : nb ≤ 0
        · by_cases hxy : s.buf x y = 0
          · have hne : ¬(p = x ∧ q = y) := by
              rintro ⟨rfl, rfl⟩; exact hpq hxy
            simp [fishScan, hg, hb, hxy, upd2_ne _ _ _ _ _ _ hne,
              upd2_ne _ _ _ _ _ _ hnen]
          · simp [fishScan, hg, hb, hxy, upd2_ne _ _ _ _ _ _ hnen]
        · simp [fishScan, hg, hb, upd2_ne _ _ _ _ _ _ hnen]
      · simpa [fishScan, hg] using ih s hpq

theorem sharkEatScan_buf_mono (cfg : Config) (w h x y : Nat) (nb : Int)
    (p q : Nat) (dirs : List (Int × Int)) :
    ∀ (s s' : Sim), s.buf p q ≠ 0 →
      sharkEatScan cfg w h x y nb dirs s = some s' →
      s'.buf p q = s.buf p q ∧ s'.bufBreed p q = s.bufBreed p q ∧
      s'.bufStarve p q = s.bufStarve p q := by
  induction dirs with
  | nil => intro s s' _ hsome; simp [sharkEatScan] at hsome
  | cons d rest ih =>
      intro s s' hpq hsome
      by_cases hg : s.grid (wrapAdd w x d.1) (wrapAdd h y d.2) = 1 ∧
          s.buf (wrapAdd w x d.1) (wrapAdd h y d.2) = 0
      · have hnen : ¬(p = wrapAdd w x d.1 ∧ q = wrapAdd h y d.2) := by
          rintro ⟨rfl, rfl⟩; exact hpq hg.2
        by_cases hb : nb ≤ 0
        · by_cases hxy : s.buf x y = 0
          · have hne : ¬(p = x ∧ q = y) := by
              rintro ⟨rfl, rfl⟩; exact hpq hxy
            simp [sharkEatScan, hg, hb, hxy] at hsome
            subst hsome
            simp [hg, hb, hxy, upd2_ne _ _ _ _ _ _ hne,
              upd2_ne _ _ _ _ _ _ hnen]
          · simp [sharkEatScan, hg, hb, hxy] at hsome
            subst hsome
            simp [hg, hb, hxy, upd2_ne _ _ _ _ _ _ hnen]
        · simp [sharkEatScan, hg, hb] at hsome
          subst hsome
          simp [hg, hb, upd2_ne _ _ _ _ _ _ hnen]
      · rw [show sharkEatScan cfg w h x y nb (d :: rest) s =
            sharkEatScan cfg w h x y nb rest s by simp [sharkEatScan, hg]]
          at hsome
        exact ih s s' hpq hsome

theorem sharkMoveScan_buf_mono (cfg : Config) (w h x y : Nat)
    (nb ns : Int) (p q : Nat) (dirs : List (Int × Int)) :
    ∀ (s s' : Sim), s.buf p q ≠ 0 →
      sharkMoveScan cfg w h x y nb ns dirs s = some s' →
      s'.buf p q = s.buf p q ∧ s'.bufBreed p q = s.bufBreed p q ∧
      s'.bufStarve p q = s.bufStarve p q := by
  induction dirs with
  | nil => intro s s' _ hsome; simp [sharkMoveScan] at hsome
  | cons d rest ih =>
      intro s s' hpq hsome
      by_cases hg : s.grid (wrapAdd w x d.1) (wrapAdd h y d.2) = 0 ∧
          s.buf (wrapAdd w x d.1) (wrapAdd h y d.2) = 0
      · have hnen : ¬(p = wrapAdd w x d.1 ∧ q = wrapAdd h y d.2) := by
          rintro ⟨rfl, rfl⟩; exact hpq hg.2
        by_cases hs : ns ≤ 0
        · simp [sharkMoveScan, hg, hs] at hsome
          subst hsome; exact ⟨rfl, rfl, rfl⟩
        · by_cases hb : nb ≤ 0
          · by_cases hxy : s.buf x y = 0
            · have hne : ¬(p = x ∧ q = y) := by
                rintro ⟨rfl, rfl⟩; exact hpq hxy
              simp [sharkMoveScan, hg, hs, hb, hxy] at hsome
              subst hsome
              simp [hxy, upd2_ne _ _ _ _ _ _ hne, upd2_ne _ _ _ _ _ _ hnen]
            · simp [sharkMoveScan, hg, hs, hb, hxy] at hsome
              subst hsome
              simp [hxy, upd2_ne _ _ _ _ _ _ hnen]
          · simp [sharkMoveScan, hg, hs, hb] at hsome
            subst hsome
            simp [upd2_ne _ _ _ _ _ _ hnen]
      · rw [show sharkMoveScan cfg w h x y nb ns (d :: rest) s =
            sharkMoveScan cfg w h x y nb ns rest s by
              simp [sharkMoveScan, hg]] at hsome
        exact ih s s' hpq hsome

theorem sharkStay_buf_mono (x y : Nat) (nb ns : Int) (p q : Nat)
    (s : Sim) (hpq : s.buf p q ≠ 0) :
    (sharkStay x y nb ns s).buf p q = s.buf p q ∧
    (sharkStay x y nb ns s).bufBreed p q = s.bufBreed p q ∧
    (sharkStay x y nb ns s).bufStarve p q = s.bufStarve p q := by
  by_cases hs : ns ≤ 0
  · simp [sharkStay, hs]
  · by_cases hxy : s.buf x y = 0
    · have hne : ¬(p = x ∧ q = y) := by
        rintro ⟨rfl, rfl⟩; exact hpq hxy
      simp [sharkStay, hs, hxy, upd2_ne _ _ _ _ _ _ hne]
    · simp [sharkStay, hs, hxy]

theorem stepCell_buf_mono (cfg : Config) (w h : Nat)
    (dirs : List (Int × Int)) (x y p q : Nat) (s : Sim)
    (hpq : s.buf p q ≠ 0) :
    (stepCell cfg w h dirs x y s).buf p q = s.buf p q ∧
    (stepCell cfg w h dirs x y s).bufBreed p q = s.bufBreed p q ∧
    (stepCell cfg w h dirs x y s).bufStarve p q = s.bufStarve p q := by
  by_cases h1 : s.grid x y = 1
  · simpa [stepCell, h1] using
      fishScan_buf_mono cfg w h x y (s.breedT x y - 1) p q dirs s hpq
  · by_cases h2 : s.grid x y = 2
    · rw [show stepCell cfg w h dirs x y s =
          (match sharkEatScan cfg w h x y (s.breedT x y - 1) dirs s with
           | some s' => s'
           | none =>
               match sharkMoveScan cfg w h x y (s.breedT x y - 1)
                   (s.starveT x y - 1) dirs s with
               | some s' => s'
               | none =>
                   sharkStay x y (s.breedT x y - 1) (s.starveT x y - 1) s)
          from by simp [stepCell, h1, h2]]
      cases heat : sharkEatScan cfg w h x y (s.breedT x y - 1) dirs s with
      | some s' =>
          simpa using sharkEatScan_buf_mono cfg w h x y (s.breedT x y - 1)
            p q dirs s s' hpq heat
      | none =>
          cases hmove : sharkMoveScan cfg w h x y (s.breedT x y - 1)
              (s.starveT x y - 1) dirs s with
          | some s' =>
              simpa using sharkMoveScan_buf_mono cfg w h x y
                (s.breedT x y - 1) (s.starveT x y - 1) p q dirs s s' hpq hmove
          | none =>
              simpa using sharkStay_buf_mono x y (s.breedT x y - 1)
                (s.starveT x y - 1) p q s hpq
    · simp [stepCell, h1, h2]

/-- C1: during a single tick, a write-buffer cell already written non-Empty
is never overwritten by the scan — every write into the buffer is guarded
by a buffer-slot-free check, so at most one writer succeeds per destination
cell per tick (first-claim-wins): scanning any list of cells leaves every
non-Empty buffer cell (and its timer slots) exactly as it was. -/
theorem C1_write_buffer_first_claim_wins (cfg : Config) (w h : Nat)
    (dc : Nat → Nat → List (Int × Int)) (cells : List (Nat × Nat))
    (p q : Nat) : ∀ (s : Sim), s.buf p q ≠ 0 →
    (scanCells cfg w h dc cells s).buf p q = s.buf p q ∧
    (scanCells cfg w h dc cells s).bufBreed p q = s.bufBreed p q ∧
    (scanCells cfg w h dc cells s).bufStarve p q = s.bufStarve p q := by
  induction cells with
  | nil => intro s _; exact ⟨rfl, rfl, rfl⟩
  | cons c rest ih =>
      intro s hpq
      have hstep := stepCell_buf_mono cfg w h (dc c.1 c.2) c.1 c.2 p q s hpq
      have hne : (stepCell cfg w h (dc c.1 c.2) c.1 c.2 s).buf p q ≠ 0 := by
        rw [hstep.1]; exact hpq
      have hrest := ih (stepCell cfg w h (dc c.1 c.2) c.1 c.2 s) hne
      refine ⟨?_, ?_, ?_⟩
      · rw [show scanCells cfg w h dc (c :: rest) s =
            scanCells cfg w h dc rest
              (stepCell cfg w h (dc c.1 c.2) c.1 c.2 s) from rfl,
          hrest.1, hstep.1]
      · rw [show scanCells cfg w h dc (c :: rest) s =
            scanCells cfg w h dc rest
              (stepCell cfg w h (dc c.1 c.2) c.1 c.2 s) from rfl,
          hrest.2.1, hstep.2.1]
      · rw [show scanCells cfg w h dc (c :: rest) s =
            scanCells cfg w h dc rest
              (stepCell cfg w h (dc c.1 c.2) c.1 c.2 s) from rfl,
          hrest.2.2, hstep.2.2]

/-- Witness for C1 at a concrete state: the claimed buffer cell (0,0) of
`simMark` survives a full 2×2 scan untouched. -/
theorem C1_write_buffer_first_claim_wins_witness :
    simMark.buf 0 0 ≠ 0 ∧
    (scanCells cfg0 2 2 dc0 (cellList 2 2) simMark).buf 0 0 =
      simMark.buf 0 0 ∧
    (scanCells cfg0 2 2 dc0 (cellList 2 2) simMark).bufBreed 0 0 =
      simMark.bufBreed 0 0 ∧
    (scanCells cfg0 2 2 dc0 (cellList 2 2) simMark).bufStarve 0 0 =
      simMark.bufStarve 0 0 :=
  ⟨by decide, C1_write_buffer_first_claim_wins cfg0 2 2 dc0 (cellList 2 2)
    0 0 simMark (by decide)⟩

/-- C9: `lockTwo` acquires the two tile locks in strictly increasing order
of the global tile ID `tileCol * tileRows + tileRow`, in the same order
regardless of which tile is passed as source and which as destination,
acquiring exactly once when the two IDs coincide; `unlockTwo` releases in
exactly the reverse order. -/
theorem C9_lockTwo_global_order (tRows ax ay bx b_y : Nat) :
    List.Chain' (· < ·) (lockTwoOrder tRows ax ay bx b_y) ∧
    lockTwoOrder tRows ax ay bx b_y = lockTwoOrder tRows bx b_y ax ay ∧
    unlockTwoOrder tRows ax ay bx b_y =
      (lockTwoOrder tRows ax ay bx b_y).reverse ∧
    (lockTwoOrder tRows ax ay bx b_y).length =
      (if tileID tRows ax ay = tileID tRows bx b_y then 1 else 2) ∧
    (lockTwoOrder tRows ax ay bx b_y).toFinset =
      {tileID tRows ax ay, tileID tRows bx b_y} := by
  rcases Nat.lt_trichotomy (tileID tRows ax ay) (tileID tRows bx b_y)
    with h | h | h
  · simp [lockTwoOrder, unlockTwoOrder, h, h.ne, h.ne', Nat.lt_asymm h]
  · simp [lockTwoOrder, unlockTwoOrder, h]
  · simp [lockTwoOrder, unlockTwoOrder, h, h.ne, h.ne', Nat.lt_asymm h,
      Finset.pair_comm]

/-- Counterexample to C5 as stated: immediately after a tick on a 2×2 world
holding one fish, the write buffer is not empty — the swap hands the old
current grid to the buffer without clearing it (clearing only happens at
the start of the next call to `update`). -/
theorem C5_counterexample : (tick cfg0 2 2 dc0 simFish22).buf 0 0 ≠ 0 := by
  decide

/-- C5 (amended): the buffers are cleared at the *start* of `update`
(before any writes), the scan therefore runs against an all-Empty buffer;
the tick-ending swap exchanges the arrays wholesale, so right after
`update` returns the buffer holds the previous generation (as mutated by
shark eating), not zeros, and the incoming buffer contents have no effect
on the tick's result. -/
theorem C5_swap_defers_clear_to_next_tick (cfg : Config) (w h : Nat)
    (dc : Nat → Nat → List (Int × Int)) (s : Sim) :
    (∀ p q : Nat, (clearBuffers s).buf p q = 0 ∧
      (clearBuffers s).bufBreed p q = 0 ∧
      (clearBuffers s).bufStarve p q = 0) ∧
    (tick cfg w h dc s).buf =
      (scanCells cfg w h dc (cellList w h) (clearBuffers s)).grid ∧
    (tick cfg w h dc s).bufBreed =
      (scanCells cfg w h dc (cellList w h) (clearBuffers s)).breedT ∧
    (tick cfg w h dc s).bufStarve =
      (scanCells cfg w h dc (cellList w h) (clearBuffers s)).starveT ∧
    (∀ (b : Nat → Nat → Nat) (bb bs : Nat → Nat → Int),
      tick cfg w h dc s =
        tick cfg w h dc { s with buf := b, bufBreed := bb, bufStarve := bs }) :=
  ⟨fun _ _ => ⟨rfl, rfl, rfl⟩, rfl, rfl, rfl, fun _ _ _ => rfl⟩

theorem sharkEatScan_none_of_no_fish (cfg : Config) (w h x y : Nat)
    (nb : Int) (dirs : List (Int × Int)) :
    ∀ (s : Sim),
      (∀ d ∈ dirs, s.grid (wrapAdd w x d.1) (wrapAdd h y d.2) ≠ 1) →
      sharkEatScan cfg w h x y nb dirs s = none := by
  induction dirs with
  | nil => intro s _; rfl
  | cons d rest ih =>
      intro s hnofish
      have hd := hnofish d (List.mem_cons_self _ _)
      have hcond : ¬(s.grid (wrapAdd w x d.1) (wrapAdd h y d.2) = 1 ∧
          s.buf (wrapAdd w x d.1) (wrapAdd h y d.2) = 0) := fun hc => hd hc.1
      rw [show sharkEatScan cfg w h x y nb (d :: rest) s =
          sharkEatScan cfg w h x y nb rest s by simp [sharkEatScan, hcond]]
      exact ih s fun d' hd' => hnofish d' (List.mem_cons_of_mem _ hd')

theorem sharkMoveScan_starved (cfg : Config) (w h x y : Nat)
    (nb ns : Int) (hns : ns ≤ 0) (dirs : List (Int × Int)) :
    ∀ (s : Sim),
      sharkMoveScan cfg w h x y nb ns dirs s = none ∨
      sharkMoveScan cfg w h x y nb ns dirs s = some s := by
  induction dirs with
  | nil => intro s; left; rfl
  | cons d rest ih =>
      intro s
      by_cases hg : s.grid (wrapAdd w x d.1) (wrapAdd h y d.2) = 0 ∧
          s.buf (wrapAdd w x d.1) (wrapAdd h y d.2) = 0
      · right; simp [sharkMoveScan, hg, hns]
      · rw [show sharkMoveScan cfg w h x y nb ns (d :: rest) s =
            sharkMoveScan cfg w h x y nb ns rest s by
              simp [sharkMoveScan, hg]]
        exact ih s

/-- C4: a shark whose starve timer is 1 at the start of the tick and that
has no fish among the neighbors it scans dies that tick: its step writes
nothing at all — the state (grids, timers, buffers) is left untouched, so
nothing is entered in the next generation on its behalf.  Starvation death
takes priority over staying in place, including when no empty neighbor
exists either. -/
theorem C4_starved_shark_dies_writing_nothing (cfg : Config) (w h : Nat)
    (dirs : List (Int × Int)) (x y : Nat) (s : Sim)
    (hshark : s.grid x y = 2) (hstarve : s.starveT x y = 1)
    (hnofish : ∀ d ∈ dirs, s.grid (wrapAdd w x d.1) (wrapAdd h y d.2) ≠ 1) :
    stepCell cfg w h dirs x y s = s := by
  have h1 : ¬s.grid x y = 1 := by rw [hshark]; decide
  have heat := sharkEatScan_none_of_no_fish cfg w h x y
    (s.breedT x y - 1) dirs s hnofish
  have hns : s.starveT x y - 1 ≤ 0 := by rw [hstarve]; decide
  have hstep : stepCell cfg w h dirs x y s =
      (match sharkMoveScan cfg w h x y (s.breedT x y - 1)
          (s.starveT x y - 1) dirs s with
       | some s' => s'
       | none => sharkStay x y (s.breedT x y - 1) (s.starveT x y - 1) s) := by
    simp [stepCell, h1, hshark, heat]
  rcases sharkMoveScan_starved cfg w h x y (s.breedT x y - 1)
      (s.starveT x y - 1) hns dirs s with hmv | hmv
  · rw [hstep, hmv]
    simp [sharkStay, hns]
  · rw [hstep, hmv]

/-- Witness for C4: the lone starving shark of `simStarvedShark` writes
nothing, and its cell is Empty after the full tick. -/
theorem C4_starved_shark_dies_writing_nothing_witness :
    simStarvedShark.grid 0 0 = 2 ∧ simStarvedShark.starveT 0 0 = 1 ∧
    (∀ d ∈ dc0 0 0, simStarvedShark.grid (wrapAdd 2 0 d.1)
      (wrapAdd 2 0 d.2) ≠ 1) ∧
    stepCell cfg0 2 2 (dc0 0 0) 0 0 simStarvedShark = simStarvedShark ∧
    (tick cfg0 2 2 dc0 simStarvedShark).grid 0 0 = 0 :=
  ⟨by decide, by decide, by decide,
    C4_starved_shark_dies_writing_nothing cfg0 2 2 (dc0 0 0) 0 0
      simStarvedShark (by decide) (by decide) (by decide),
    by decide⟩

theorem fishScan_skip (cfg : Config) (w h x y : Nat) (nb : Int)
    (ds : List (Int × Int)) (pre : List (Int × Int)) :
    ∀ (s : Sim),
      (∀ d ∈ pre, ¬(s.grid (wrapAdd w x d.1) (wrapAdd h y d.2) = 0 ∧
        s.buf (wrapAdd w x d.1) (wrapAdd h y d.2) = 0)) →
      fishScan cfg w h x y nb (pre ++ ds) s = fishScan cfg w h x y nb ds s := by
  induction pre with
  | nil => intro s _; rfl
  | cons d rest ih =>
      intro s hpre
      have hd := hpre d (List.mem_cons_self _ _)
      rw [List.cons_append,
        show fishScan cfg w h x y nb (d :: (rest ++ ds)) s =
          fishScan cfg w h x y nb (rest ++ ds) s by simp [fishScan, hd]]
      exact ih s fun d' hd' => hpre d' (List.mem_cons_of_mem _ hd')

/-- C2: a fish claims the first neighbor in its scan order that is Empty in
both the current grid and the write buffer (earlier directions all failed
that check; the remaining directions are never consulted).  With
`next_breed = breed_timer - 1`: if `next_breed ≤ 0` the destination gets a
fish with timer reset to `fishBreed` and, when the source buffer slot is
still free, the source also gets a newborn fish with timer `fishBreed`;
if `next_breed > 0` only the destination is written, with timer
`next_breed`, every other buffer cell staying untouched. -/
theorem C2_fish_claims_first_free_neighbor (cfg : Config) (w h x y : Nat)
    (pre rest : List (Int × Int)) (d : Int × Int) (s : Sim)
    (hfish : s.grid x y = 1)
    (hpre : ∀ d' ∈ pre,
      ¬(s.grid (wrapAdd w x d'.1) (wrapAdd h y d'.2) = 0 ∧
        s.buf (wrapAdd w x d'.1) (wrapAdd h y d'.2) = 0))
    (hgrid : s.grid (wrapAdd w x d.1) (wrapAdd h y d.2) = 0)
    (hbuf : s.buf (wrapAdd w x d.1) (wrapAdd h y d.2) = 0) :
    (s.breedT x y - 1 ≤ 0 →
      (stepCell cfg w h (pre ++ d :: rest) x y s).buf
        (wrapAdd w x d.1) (wrapAdd h y d.2) = 1 ∧
      (stepCell cfg w h (pre ++ d :: rest) x y s).bufBreed
        (wrapAdd w x d.1) (wrapAdd h y d.2) = cfg.fishBreed ∧
      (s.buf x y = 0 →
        (stepCell cfg w h (pre ++ d :: rest) x y s).buf x y = 1 ∧
        (stepCell cfg w h (pre ++ d :: rest) x y s).bufBreed x y =
          cfg.fishBreed)) ∧
    (0 < s.breedT x y - 1 →
      (stepCell cfg w h (pre ++ d :: rest) x y s).buf
        (wrapAdd w x d.1) (wrapAdd h y d.2) = 1 ∧
      (stepCell cfg w h (pre ++ d :: rest) x y s).bufBreed
        (wrapAdd w x d.1) (wrapAdd h y d.2) = s.breedT x y - 1 ∧
      (∀ p q : Nat, ¬(p = wrapAdd w x d.1 ∧ q = wrapAdd h y d.2) →
        (stepCell cfg w h (pre ++ d :: rest) x y s).buf p q = s.buf p q ∧
        (stepCell cfg w h (pre ++ d :: rest) x y s).bufBreed p q =
          s.bufBreed p q)) := by
  have hne_src : ¬(x = wrapAdd w x d.1 ∧ y = wrapAdd h y d.2) := by
    rintro ⟨h1, h2⟩
    rw [← h1, ← h2] at hgrid
    rw [hfish] at hgrid
    exact absurd hgrid (by decide)
  have hstep : stepCell cfg w h (pre ++ d :: rest) x y s =
      fishScan cfg w h x y (s.breedT x y - 1) (d :: rest) s := by
    rw [show stepCell cfg w h (pre ++ d :: rest) x y s =
        fishScan cfg w h x y (s.breedT x y - 1) (pre ++ d :: rest) s from
        by simp [stepCell, hfish]]
    exact fishScan_skip cfg w h x y (s.breedT x y - 1) (d :: rest) pre s hpre
  constructor
  · intro hb
    by_cases hxy : s.buf x y = 0
    · refine ⟨?_, ?_, fun _ => ⟨?_, ?_⟩⟩ <;>
        simp [hstep, fishScan, hgrid, hbuf, hb, hxy, upd2_self,
          upd2_ne _ _ _ _ _ _ hne_src]
    · refine ⟨?_, ?_, fun hxy0 => absurd hxy0 hxy⟩ <;>
        simp [hstep, fishScan, hgrid, hbuf, hb, hxy, upd2_self]
  · intro hb
    have hb' : ¬(s.breedT x y - 1 ≤ 0) := by omega
    refine ⟨?_, ?_, fun p q hpq => ⟨?_, ?_⟩⟩
    · simp [hstep, fishScan, hgrid, hbuf, hb', upd2_self]
    · simp [hstep, fishScan, hgrid, hbuf, hb', upd2_self]
    · simp [hstep, fishScan, hgrid, hbuf, hb', upd2_ne _ _ _ _ _ _ hpq]
    · simp [hstep, fishScan, hgrid, hbuf, hb', upd2_ne _ _ _ _ _ _ hpq]

/-- Witness for C2: the breeding fish of `simFishBreed` claims its first
scanned neighbor (direction (-1,0), i.e. cell (1,0) after wraparound). -/
theorem C2_fish_claims_first_free_neighbor_witness :
    simFishBreed.grid 0 0 = 1 ∧
    simFishBreed.grid (wrapAdd 2 0 (-1)) (wrapAdd 2 0 0) = 0 ∧
    simFishBreed.buf (wrapAdd 2 0 (-1)) (wrapAdd 2 0 0) = 0 ∧
    ((simFishBreed.breedT 0 0 - 1 ≤ 0 →
      (stepCell cfg0 2 2 ([] ++ (-1, 0) :: [(1, 0), (0, -1), (0, 1)])
        0 0 simFishBreed).buf (wrapAdd 2 0 (-1)) (wrapAdd 2 0 0) = 1 ∧
      (stepCell cfg0 2 2 ([] ++ (-1, 0) :: [(1, 0), (0, -1), (0, 1)])
        0 0 simFishBreed).bufBreed (wrapAdd 2 0 (-1)) (wrapAdd 2 0 0) =
        cfg0.fishBreed ∧
      (simFishBreed.buf 0 0 = 0 →
        (stepCell cfg0 2 2 ([] ++ (-1, 0) :: [(1, 0), (0, -1), (0, 1)])
          0 0 simFishBreed).buf 0 0 = 1 ∧
        (stepCell cfg0 2 2 ([] ++ (-1, 0) :: [(1, 0), (0, -1), (0, 1)])
          0 0 simFishBreed).bufBreed 0 0 = cfg0.fishBreed)) ∧
    (0 < simFishBreed.breedT 0 0 - 1 →
      (stepCell cfg0 2 2 ([] ++ (-1, 0) :: [(1, 0), (0, -1), (0, 1)])
        0 0 simFishBreed).buf (wrapAdd 2 0 (-1)) (wrapAdd 2 0 0) = 1 ∧
      (stepCell cfg0 2 2 ([] ++ (-1, 0) :: [(1, 0), (0, -1), (0, 1)])
        0 0 simFishBreed).bufBreed (wrapAdd 2 0 (-1)) (wrapAdd 2 0 0) =
        simFishBreed.breedT 0 0 - 1 ∧
      (∀ p q : Nat, ¬(p = wrapAdd 2 0 (-1) ∧ q = wrapAdd 2 0 0) →
        (stepCell cfg0 2 2 ([] ++ (-1, 0) :: [(1, 0), (0, -1), (0, 1)])
          0 0 simFishBreed).buf p q = simFishBreed.buf p q ∧
        (stepCell cfg0 2 2 ([] ++ (-1, 0) :: [(1, 0), (0, -1), (0, 1)])
          0 0 simFishBreed).bufBreed p q = simFishBreed.bufBreed p q))) :=
  ⟨by decide, by decide, by decide,
    C2_fish_claims_first_free_neighbor cfg0 2 2 0 0 [] [(1, 0), (0, -1), (0, 1)]
      (-1, 0) simFishBreed (by decide) (by decide) (by decide) (by decide)⟩

theorem cellSpec_refl (cfg : Config) (s : Sim) (p q : Nat) :
    CellSpec cfg s s p q :=
  Or.inl ⟨rfl, rfl, rfl⟩

theorem cellSpec_trans {cfg : Config} {s t u : Sim} {p q : Nat}
    (h : CellSpec cfg s t p q) (g : CellSpec cfg t u p q) :
    CellSpec cfg s u p q := by
  rcases h with ⟨h1, h2, h3⟩ | ⟨h1, h2⟩
  · rcases g with ⟨g1, g2, g3⟩ | ⟨g1, g2⟩
    · exact Or.inl ⟨g1.trans h1, g2.trans h2, g3.trans h3⟩
    · refine Or.inr ⟨g1, fun c1 c2 c3 => ⟨(g2 c1 c2 c3).1, ?_⟩⟩
      rcases (g2 c1 c2 c3).2 with he | hn
      · exact Or.inl (he.trans h3)
      · exact Or.inr hn
  · rcases g with ⟨g1, g2, g3⟩ | ⟨g1, g2⟩
    · refine Or.inr ⟨by rw [g1]; exact h1, fun c1 c2 c3 => ?_⟩
      refine ⟨by rw [g2]; exact (h2 c1 c2 c3).1, ?_⟩
      rw [g3]
      exact (h2 c1 c2 c3).2
    · refine Or.inr ⟨g1, fun c1 c2 c3 => ⟨(g2 c1 c2 c3).1, ?_⟩⟩
      rcases (g2 c1 c2 c3).2 with he | hn
      · rw [he]
        exact (h2 c1 c2 c3).2
      · exact Or.inr hn

theorem cellSpec_write2 (cfg : Config) (g : Nat → Nat → Nat)
    (bt st : Nat → Nat → Int) (bf : Nat → Nat → Nat) (bb bs : Nat → Nat → Int)
    (a b : Nat) (v : Nat) (tb : Int) (p q : Nat) (hv : v ≠ 0)
    (htb : 0 ≤ cfg.fishBreed → 0 ≤ cfg.sharkBreed → 0 ≤ cfg.sharkStarve →
      0 ≤ tb) :
    CellSpec cfg ⟨g, bt, st, bf, bb, bs⟩
      ⟨g, bt, st, upd2 bf a b v, upd2 bb a b tb, bs⟩ p q := by
  by_cases hpq : p = a ∧ q = b
  · obtain ⟨rfl, rfl⟩ := hpq
    refine Or.inr ⟨by simpa [upd2_self] using hv, fun c1 c2 c3 => ?_⟩
    exact ⟨by simpa [upd2_self] using htb c1 c2 c3, Or.inl rfl⟩
  · exact Or.inl ⟨upd2_ne _ _ _ _ _ _ hpq, upd2_ne _ _ _ _ _ _ hpq, rfl⟩

theorem cellSpec_write3 (cfg : Config) (g : Nat → Nat → Nat)
    (bt st : Nat → Nat → Int) (bf : Nat → Nat → Nat) (bb bs : Nat → Nat → Int)
    (a b : Nat) (v : Nat) (tb ts : Int) (p q : Nat) (hv : v ≠ 0)
    (htb : 0 ≤ cfg.fishBreed → 0 ≤ cfg.sharkBreed → 0 ≤ cfg.sharkStarve →
      0 ≤ tb)
    (hts : 0 ≤ cfg.fishBreed → 0 ≤ cfg.sharkBreed → 0 ≤ cfg.sharkStarve →
      0 ≤ ts) :
    CellSpec cfg ⟨g, bt, st, bf, bb, bs⟩
      ⟨g, bt, st, upd2 bf a b v, upd2 bb a b tb, upd2 bs a b ts⟩ p q := by
  by_cases hpq : p = a ∧ q = b
  · obtain ⟨rfl, rfl⟩ := hpq
    refine Or.inr ⟨by simpa [upd2_self] using hv, fun c1 c2 c3 => ?_⟩
    exact ⟨by simpa [upd2_self] using htb c1 c2 c3,
      Or.inr (by simpa [upd2_self] using hts c1 c2 c3)⟩
  · exact Or.inl ⟨upd2_ne _ _ _ _ _ _ hpq, upd2_ne _ _ _ _ _ _ hpq,
      upd2_ne _ _ _ _ _ _ hpq⟩

theorem fishScan_cellSpec (cfg : Config) (w h x y : Nat) (nb : Int)
    (dirs : List (Int × Int)) :
    ∀ (s : Sim) (p q : Nat), CellSpec cfg s (fishScan cfg w h x y nb dirs s) p q := by
  induction dirs with
  | nil =>
      intro s p q
      simp only [fishScan]
      by_cases hxy : s.buf x y = 0
      · rw [if_pos hxy]
        exact cellSpec_write2 cfg s.grid s.breedT s.starveT s.buf s.bufBreed
          s.bufStarve x y 1 (if nb < 0 then 0 else nb) p q (by decide)
          (fun _ _ _ => by split <;> omega)
      · rw [if_neg hxy]
        exact cellSpec_refl cfg s p q
  | cons d rest ih =>
      intro s p q
      simp only [fishScan]
      by_cases hg : s.grid (wrapAdd w x d.1) (wrapAdd h y d.2) = 0 ∧
          s.buf (wrapAdd w x d.1) (wrapAdd h y d.2) = 0
      · rw [if_pos hg]
        by_cases hb : nb ≤ 0
        · rw [if_pos hb]
          by_cases hxy : s.buf x y = 0
          · rw [if_pos hxy]
            exact cellSpec_trans
              (cellSpec_write2 cfg s.grid s.breedT s.starveT s.buf s.bufBreed
                s.bufStarve x y 1 cfg.fishBreed p q (by decide)
                (fun c1 _ _ => c1))
              (cellSpec_write2 cfg s.grid s.breedT s.starveT
                (upd2 s.buf x y 1) (upd2 s.bufBreed x y cfg.fishBreed)
                s.bufStarve (wrapAdd w x d.1) (wrapAdd h y d.2) 1
                cfg.fishBreed p q (by decide) (fun c1 _ _ => c1))
          · rw [if_neg hxy]
            exact cellSpec_write2 cfg s.grid s.breedT s.starveT s.buf
              s.bufBreed s.bufStarve (wrapAdd w x d.1) (wrapAdd h y d.2) 1
              cfg.fishBreed p q (by decide) (fun c1 _ _ => c1)
        · rw [if_neg hb]
          exact cellSpec_write2 cfg s.grid s.breedT s.starveT s.buf
            s.bufBreed s.bufStarve (wrapAdd w x d.1) (wrapAdd h y d.2) 1 nb
            p q (by decide) (fun _ _ _ => by omega)
      · rw [if_neg hg]
        exact ih s p q

theorem cellSpec_gridOnly (cfg : Config) (s : Sim) (g : Nat → Nat → Nat)
    (p q : Nat) : CellSpec cfg s { s with grid := g } p q :=
  Or.inl ⟨rfl, rfl, rfl⟩

theorem sharkEatScan_cellSpec (cfg : Config) (w h x y : Nat) (nb : Int)
    (dirs : List (Int × Int)) :
    ∀ (s s' : Sim) (p q : Nat),
      sharkEatScan cfg w h x y nb dirs s = some s' →
      CellSpec cfg s s' p q := by
  induction dirs with
  | nil => intro s s' p q hsome; simp [sharkEatScan] at hsome
  | cons d rest ih =>
      intro s s' p q hsome
      simp only [sharkEatScan] at hsome
      by_cases hg : s.grid (wrapAdd w x d.1) (wrapAdd h y d.2) = 1 ∧
          s.buf (wrapAdd w x d.1) (wrapAdd h y d.2) = 0
      · rw [if_pos hg] at hsome
        by_cases hb : nb ≤ 0
        · rw [if_pos hb] at hsome
          by_cases hxy : s.buf x y = 0
          · rw [if_pos hxy] at hsome
            obtain rfl := (Option.some.inj hsome).symm
            exact cellSpec_trans (cellSpec_trans
              (cellSpec_gridOnly cfg s
                (upd2 s.grid (wrapAdd w x d.1) (wrapAdd h y d.2) 0) p q)
              (cellSpec_write3 cfg (upd2 s.grid (wrapAdd w x d.1)
                  (wrapAdd h y d.2) 0) s.breedT s.starveT s.buf s.bufBreed
                s.bufStarve x y 2 cfg.sharkBreed cfg.sharkStarve p q
                (by decide) (fun _ c2 _ => c2) (fun _ _ c3 => c3)))
              (cellSpec_write3 cfg (upd2 s.grid (wrapAdd w x d.1)
                  (wrapAdd h y d.2) 0) s.breedT s.starveT
                (upd2 s.buf x y 2) (upd2 s.bufBreed x y cfg.sharkBreed)
                (upd2 s.bufStarve x y cfg.sharkStarve)
                (wrapAdd w x d.1) (wrapAdd h y d.2) 2 cfg.sharkBreed
                cfg.sharkStarve p q (by decide) (fun _ c2 _ => c2)
                (fun _ _ c3 => c3))
          · rw [if_neg hxy] at hsome
            obtain rfl := (Option.some.inj hsome).symm
            exact cellSpec_trans
              (cellSpec_gridOnly cfg s
                (upd2 s.grid (wrapAdd w x d.1) (wrapAdd h y d.2) 0) p q)
              (cellSpec_write3 cfg (upd2 s.grid (wrapAdd w x d.1)
                  (wrapAdd h y d.2) 0) s.breedT s.starveT s.buf s.bufBreed
                s.bufStarve (wrapAdd w x d.1) (wrapAdd h y d.2) 2
                cfg.sharkBreed cfg.sharkStarve p q (by decide)
                (fun _ c2 _ => c2) (fun _ _ c3 => c3))
        · rw [if_neg hb] at hsome
          obtain rfl := (Option.some.inj hsome).symm
          exact cellSpec_trans
            (cellSpec_gridOnly cfg s
              (upd2 s.grid (wrapAdd w x d.1) (wrapAdd h y d.2) 0) p q)
            (cellSpec_write3 cfg (upd2 s.grid (wrapAdd w x d.1)
                (wrapAdd h y d.2) 0) s.breedT s.starveT s.buf s.bufBreed
              s.bufStarve (wrapAdd w x d.1) (wrapAdd h y d.2) 2 nb
              cfg.sharkStarve p q (by decide) (fun _ _ _ => by omega)
              (fun _ _ c3 => c3))
      · rw [if_neg hg] at hsome
        exact ih s s' p q hsome

theorem sharkMoveScan_cellSpec (cfg : Config) (w h x y : Nat)
    (nb ns : Int) (dirs : List (Int × Int)) :
    ∀ (s s' : Sim) (p q : Nat),
      sharkMoveScan cfg w h x y nb ns dirs s = some s' →
      CellSpec cfg s s' p q := by
  induction dirs with
  | nil => intro s s' p q hsome; simp [sharkMoveScan] at hsome
  | cons d rest ih =>
      intro s s' p q hsome
      simp only [sharkMoveScan] at hsome
      by_cases hg : s.grid (wrapAdd w x d.1) (wrapAdd h y d.2) = 0 ∧
          s.buf (wrapAdd w x d.1) (wrapAdd h y d.2) = 0
      · rw [if_pos hg] at hsome
        by_cases hs : ns ≤ 0
        · rw [if_pos hs] at hsome
          obtain rfl := Option.some.inj hsome
          exact cellSpec_refl cfg s p q
        · rw [if_neg hs] at hsome
          by_cases hb : nb ≤ 0
          · rw [if_pos hb] at hsome
            by_cases hxy : s.buf x y = 0
            · rw [if_pos hxy] at hsome
              obtain rfl := (Option.some.inj hsome).symm
              exact cellSpec_trans
                (cellSpec_write3 cfg s.grid s.breedT s.starveT s.buf
                  s.bufBreed s.bufStarve x y 2 cfg.sharkBreed
                  cfg.sharkStarve p q (by decide) (fun _ c2 _ => c2)
                  (fun _ _ c3 => c3))
                (cellSpec_write3 cfg s.grid s.breedT s.starveT
                  (upd2 s.buf x y 2) (upd2 s.bufBreed x y cfg.sharkBreed)
                  (upd2 s.bufStarve x y cfg.sharkStarve)
                  (wrapAdd w x d.1) (wrapAdd h y d.2) 2 cfg.sharkBreed ns
                  p q (by decide) (fun _ c2 _ => c2)
                  (fun _ _ _ => by omega))
            · rw [if_neg hxy] at hsome
              obtain rfl := (Option.some.inj hsome).symm
              exact cellSpec_write3 cfg s.grid s.breedT s.starveT s.buf
                s.bufBreed s.bufStarve (wrapAdd w x d.1) (wrapAdd h y d.2)
                2 cfg.sharkBreed ns p q (by decide) (fun _ c2 _ => c2)
                (fun _ _ _ => by omega)
          · rw [if_neg hb] at hsome
            obtain rfl := (Option.some.inj hsome).symm
            exact cellSpec_write3 cfg s.grid s.breedT s.starveT s.buf
              s.bufBreed s.bufStarve (wrapAdd w x d.1) (wrapAdd h y d.2) 2
              nb ns p q (by decide) (fun _ _ _ => by omega)
              (fun _ _ _ => by omega)
      · rw [if_neg hg] at hsome
        exact ih s s' p q hsome

theorem sharkStay_cellSpec (cfg : Config) (x y : Nat) (nb ns : Int)
    (s : Sim) (p q : Nat) : CellSpec cfg s (sharkStay x y nb ns s) p q := by
  simp only [sharkStay]
  by_cases hs : ns ≤ 0
  · rw [if_pos hs]
    exact cellSpec_refl cfg s p q
  · rw [if_neg hs]
    by_cases hxy : s.buf x y = 0
    · rw [if_pos hxy]
      exact cellSpec_write3 cfg s.grid s.breedT s.starveT s.buf s.bufBreed
        s.bufStarve x y 2 (if nb < 0 then 0 else nb) ns p q (by decide)
        (fun _ _ _ => by split <;> omega) (fun _ _ _ => by omega)
    · rw [if_neg hxy]
      exact cellSpec_refl cfg s p q

theorem stepCell_cellSpec (cfg : Config) (w h : Nat)
    (dirs : List (Int × Int)) (x y : Nat) (s : Sim) (p q : Nat) :
    CellSpec cfg s (stepCell cfg w h dirs x y s) p q := by
  by_cases h1 : s.grid x y = 1
  · rw [show stepCell cfg w h dirs x y s =
        fishScan cfg w h x y (s.breedT x y - 1) dirs s from
        by simp [stepCell, h1]]
    exact fishScan_cellSpec cfg w h x y (s.breedT x y - 1) dirs s p q
  · by_cases h2 : s.grid x y = 2
    · rw [show stepCell cfg w h dirs x y s =
          (match sharkEatScan cfg w h x y (s.breedT x y - 1) dirs s with
           | some s' => s'
           | none =>
               match sharkMoveScan cfg w h x y (s.breedT x y - 1)
                   (s.starveT x y - 1) dirs s with
               | some s' => s'
               | none =>
                   sharkStay x y (s.breedT x y - 1) (s.starveT x y - 1) s)
          from by simp [stepCell, h1, h2]]
      cases heat : sharkEatScan cfg w h x y (s.breedT x y - 1) dirs s with
      | some t =>
          simpa using sharkEatScan_cellSpec cfg w h x y (s.breedT x y - 1)
            dirs s t p q heat
      | none =>
          cases hmove : sharkMoveScan cfg w h x y (s.breedT x y - 1)
              (s.starveT x y - 1) dirs s with
          | some t =>
              simpa using sharkMoveScan_cellSpec cfg w h x y
                (s.breedT x y - 1) (s.starveT x y - 1) dirs s t p q hmove
          | none =>
              simpa using sharkStay_cellSpec cfg x y (s.breedT x y - 1)
                (s.starveT x y - 1) s p q
    · rw [show stepCell cfg w h dirs x y s = s from by simp [stepCell, h1, h2]]
      exact cellSpec_refl cfg s p q

theorem scanCells_cellSpec (cfg : Config) (w h : Nat)
    (dc : Nat → Nat → List (Int × Int)) (cells : List (Nat × Nat)) :
    ∀ (s : Sim) (p q : Nat),
      CellSpec cfg s (scanCells cfg w h dc cells s) p q := by
  induction cells with
  | nil => intro s p q; exact cellSpec_refl cfg s p q
  | cons c rest ih =>
      intro s p q
      exact cellSpec_trans
        (stepCell_cellSpec cfg w h (dc c.1 c.2) c.1 c.2 s p q)
        (ih (stepCell cfg w h (dc c.1 c.2) c.1 c.2 s) p q)

/-- C7: after any call to `update`, every cell of the new current state has
nonnegative timers (provided the configured timers are nonnegative, as all
positive configuration values are): within-tick intermediate values may go
negative but are clamped before being written. -/
theorem C7_timers_nonneg_after_tick (cfg : Config) (w h : Nat)
    (dc : Nat → Nat → List (Int × Int)) (s : Sim)
    (h1 : 0 ≤ cfg.fishBreed) (h2 : 0 ≤ cfg.sharkBreed)
    (h3 : 0 ≤ cfg.sharkStarve) (p q : Nat) :
    0 ≤ (tick cfg w h dc s).breedT p q ∧
    0 ≤ (tick cfg w h dc s).starveT p q := by
  have hspec := scanCells_cellSpec cfg w h dc (cellList w h)
    (clearBuffers s) p q
  have hbr : (tick cfg w h dc s).breedT p q =
      (scanCells cfg w h dc (cellList w h) (clearBuffers s)).bufBreed p q :=
    rfl
  have hst : (tick cfg w h dc s).starveT p q =
      (scanCells cfg w h dc (cellList w h) (clearBuffers s)).bufStarve p q :=
    rfl
  rcases hspec with ⟨_, hh2, hh3⟩ | ⟨_, himp⟩
  · rw [hbr, hst, hh2, hh3]
    exact ⟨le_refl 0, le_refl 0⟩
  · obtain ⟨hbb, hbs⟩ := himp h1 h2 h3
    refine ⟨by rw [hbr]; exact hbb, ?_⟩
    rcases hbs with he | hn
    · rw [hst, he]; exact le_refl 0
    · rw [hst]; exact hn

/-- Witness for C7 on the default configuration and a concrete world. -/
theorem C7_timers_nonneg_after_tick_witness :
    0 ≤ cfg0.fishBreed ∧ 0 ≤ cfg0.sharkBreed ∧ 0 ≤ cfg0.sharkStarve ∧
    0 ≤ (tick cfg0 2 2 dc0 simFish22).breedT 0 0 ∧
    0 ≤ (tick cfg0 2 2 dc0 simFish22).starveT 0 0 :=
  ⟨by decide, by decide, by decide,
    (C7_timers_nonneg_after_tick cfg0 2 2 dc0 simFish22 (by decide)
      (by decide) (by decide) 0 0).1,
    (C7_timers_nonneg_after_tick cfg0 2 2 dc0 simFish22 (by decide)
      (by decide) (by decide) 0 0).2⟩

theorem placeLoop_emptyZero (v : Nat) (hv : v ≠ 0) (bt : Int)
    (st : Option Int) (picks : List (Nat × Nat)) :
    ∀ (need : Nat) (s s' : Sim) (rest : List (Nat × Nat)),
      (∀ a b, s.grid a b = 0 → s.breedT a b = 0 ∧ s.starveT a b = 0) →
      placeLoop v bt st need picks s = some (s', rest) →
      ∀ a b, s'.grid a b = 0 → s'.breedT a b = 0 ∧ s'.starveT a b = 0 := by
  induction picks with
  | nil =>
      intro need s s' rest hs hpl
      cases need with
      | zero =>
          obtain ⟨rfl, rfl⟩ : s = s' ∧ ([] : List (Nat × Nat)) = rest := by
            simpa [placeLoop] using hpl
          exact hs
      | succ n => simp [placeLoop] at hpl
  | cons pk rest' ih =>
      intro need s s' rest hs hpl
      cases need with
      | zero =>
          obtain ⟨rfl, rfl⟩ : s = s' ∧ pk :: rest' = rest := by
            simpa [placeLoop] using hpl
          exact hs
      | succ n =>
          by_cases hempty : s.grid pk.1 pk.2 = 0
          · rw [show placeLoop v bt st (n + 1) (pk :: rest') s =
                placeLoop v bt st n rest' (placeWrite v bt st pk s) from
                by simp [placeLoop, hempty]] at hpl
            refine ih n _ s' rest ?_ hpl
            intro a b hab
            by_cases hpq : a = pk.1 ∧ b = pk.2
            · obtain ⟨rfl, rfl⟩ := hpq
              rw [show (placeWrite v bt st pk s).grid pk.1 pk.2 = v from
                upd2_self _ _ _ _] at hab
              exact absurd hab hv
            · rw [show (placeWrite v bt st pk s).grid a b = s.grid a b from
                upd2_ne _ _ _ _ _ _ hpq] at hab
              obtain ⟨hb1, hb2⟩ := hs a b hab
              refine ⟨by simpa [placeWrite, upd2_ne _ _ _ _ _ _ hpq]
                using hb1, ?_⟩
              cases st with
              | none => simpa [placeWrite] using hb2
              | some stv =>
                  simpa [placeWrite, upd2_ne _ _ _ _ _ _ hpq] using hb2
          · rw [show placeLoop v bt st (n + 1) (pk :: rest') s =
                placeLoop v bt st (n + 1) rest' s from
                by simp [placeLoop, hempty]] at hpl
            exact ih (n + 1) s s' rest hs hpl

/-- C10: every Empty cell has both timers equal to zero, both in the state
produced by `initWorld` and in the state produced by any call to `update`
(buffer timers are zeroed when the tick starts and are only ever written
together with an occupant; `initWorld` writes timers only when placing). -/
theorem C10_empty_cells_have_zero_timers (cfg : Config) (w h : Nat)
    (dc : Nat → Nat → List (Int × Int)) (s : Sim) (nf ns : Int)
    (picks : List (Nat × Nat)) (sInit sOut : Sim) (p q : Nat)
    (hinit : initWorldModel cfg nf ns picks sInit = some sOut) :
    ((tick cfg w h dc s).grid p q = 0 →
      (tick cfg w h dc s).breedT p q = 0 ∧
      (tick cfg w h dc s).starveT p q = 0) ∧
    (sOut.grid p q = 0 → sOut.breedT p q = 0 ∧ sOut.starveT p q = 0) := by
  constructor
  · intro hg
    have hspec := scanCells_cellSpec cfg w h dc (cellList w h)
      (clearBuffers s) p q
    have hbuf : (scanCells cfg w h dc (cellList w h)
        (clearBuffers s)).buf p q = 0 := hg
    rcases hspec with ⟨_, hh2, hh3⟩ | ⟨hne, _⟩
    · exact ⟨hh2, hh3⟩
    · exact absurd hbuf hne
  · intro hg
    rcases hpl1 : placeLoop 1 cfg.fishBreed none nf.toNat picks
        (clearWorld sInit) with _ | ⟨sA, restA⟩
    · rw [show initWorldModel cfg nf ns picks sInit = none from
        by simp [initWorldModel, hpl1]] at hinit
      exact absurd hinit (by simp)
    · rcases hpl2 : placeLoop 2 cfg.sharkBreed (some cfg.sharkStarve)
          ns.toNat restA sA with _ | ⟨sB, restB⟩
      · rw [show initWorldModel cfg nf ns picks sInit = none from
          by simp [initWorldModel, hpl1, hpl2]] at hinit
        exact absurd hinit (by simp)
      · have hout : sOut = sB := by
          have : initWorldModel cfg nf ns picks sInit = some sB := by
            simp [initWorldModel, hpl1, hpl2]
          rw [this] at hinit
          exact (Option.some.inj hinit).symm
        have hA := placeLoop_emptyZero 1 (by decide) cfg.fishBreed none
          picks nf.toNat _ sA restA (fun _ _ _ => ⟨rfl, rfl⟩) hpl1
        have hB := placeLoop_emptyZero 2 (by decide) cfg.sharkBreed
          (some cfg.sharkStarve) restA ns.toNat sA sB restB hA hpl2
        rw [hout] at hg ⊢
        exact hB p q hg

/-- Witness for C10: a concrete `initWorld` run and a concrete tick, with
an Empty cell whose timers are zero in each. -/
theorem C10_empty_cells_have_zero_timers_witness :
    initWorldModel cfg0 1 1 [(0, 0), (1, 1)] simFish22 = some s1w ∧
    (((tick cfg0 2 2 dc0 simFish22).grid 0 1 = 0 →
      (tick cfg0 2 2 dc0 simFish22).breedT 0 1 = 0 ∧
      (tick cfg0 2 2 dc0 simFish22).starveT 0 1 = 0) ∧
    (s1w.grid 0 1 = 0 → s1w.breedT 0 1 = 0 ∧ s1w.starveT 0 1 = 0)) :=
  ⟨rfl, C10_empty_cells_have_zero_timers cfg0 2 2 dc0 simFish22 1 1
    [(0, 0), (1, 1)] simFish22 s1w 0 1 rfl⟩

theorem ceil_div_mul_ge (w tc : Nat) (htc : 0 < tc) (hw : 0 < w) :
    w ≤ tc * ((w + tc - 1) / tc) := by
  have hdm := Nat.div_add_mod (w + tc - 1) tc
  have hmod := Nat.mod_lt (w + tc - 1) htc
  generalize tc * ((w + tc - 1) / tc) = m at hdm ⊢
  generalize (w + tc - 1) % tc = r at hdm hmod
  omega

theorem div_mul_bounds (x tw : Nat) (htw : 0 < tw) :
    x / tw * tw ≤ x ∧ x < x / tw * tw + tw := by
  have hdm := Nat.div_add_mod x tw
  have hmod := Nat.mod_lt x htw
  rw [Nat.mul_comm] at hdm
  generalize x / tw * tw = m at hdm ⊢
  generalize x % tw = r at hdm hmod
  omega

/-- C8: for every worker count and grid size the tile layout — built with
`tileCols = max 1 ⌊√threads⌋`, `tileRows = ⌈threads / tileCols⌉`,
`tileW = ⌈width / tileCols⌉`, `tileH = ⌈height / tileRows⌉`, dropping
zero-area tiles — partitions the grid exactly: every cell lies in exactly
one kept tile. -/
theorem C8_tiles_partition_grid (threads w h x y : Nat)
    (hx : x < w) (hy : y < h) :
    ((tileSet w h threads).filter
      fun t => cellInTile w h threads t.1 t.2 x y).card = 1 := by
  have hw : 0 < w := lt_of_le_of_lt (Nat.zero_le x) hx
  have hh : 0 < h := lt_of_le_of_lt (Nat.zero_le y) hy
  have htc : 0 < tileCols threads :=
    lt_of_lt_of_le Nat.zero_lt_one (le_max_left 1 _)
  have htr : 0 < tileRows threads :=
    lt_of_lt_of_le Nat.zero_lt_one (le_max_left 1 _)
  have htw : 0 < tileW w threads :=
    Nat.div_pos (by omega) htc
  have hth : 0 < tileH h threads :=
    Nat.div_pos (by omega) htr
  have hcov : w ≤ tileCols threads * tileW w threads :=
    ceil_div_mul_ge w (tileCols threads) htc hw
  have hcovh : h ≤ tileRows threads * tileH h threads :=
    ceil_div_mul_ge h (tileRows threads) htr hh
  have hxb := div_mul_bounds x (tileW w threads) htw
  have hyb := div_mul_bounds y (tileH h threads) hth
  have htx : x / tileW w threads < tileCols threads :=
    (Nat.div_lt_iff_lt_mul htw).mpr (lt_of_lt_of_le hx hcov)
  have hty : y / tileH h threads < tileRows threads :=
    (Nat.div_lt_iff_lt_mul hth).mpr (lt_of_lt_of_le hy hcovh)
  rw [Finset.card_eq_one]
  refine ⟨(x / tileW w threads, y / tileH h threads), ?_⟩
  rw [Finset.eq_singleton_iff_unique_mem]
  constructor
  · rw [Finset.mem_filter]
    constructor
    · rw [tileSet, Finset.mem_filter, Finset.mem_product, Finset.mem_range,
        Finset.mem_range]
      refine ⟨⟨htx, hty⟩, ?_, ?_⟩
      · exact lt_of_le_of_lt hxb.1 (lt_min hxb.2 hx)
      · exact lt_of_le_of_lt hyb.1 (lt_min hyb.2 hy)
    · exact ⟨hxb.1, lt_min hxb.2 hx, hyb.1, lt_min hyb.2 hy⟩
  · rintro ⟨tx, ty⟩ hmem
    rw [Finset.mem_filter] at hmem
    obtain ⟨-, hc1, hc2, hc3, hc4⟩ := hmem
    have hx2 : x < tx * tileW w threads + tileW w threads :=
      lt_of_lt_of_le hc2 (min_le_left _ _)
    have hy2 : y < ty * tileH h threads + tileH h threads :=
      lt_of_lt_of_le hc4 (min_le_left _ _)
    have e1 : x / tileW w threads = tx :=
      Nat.div_eq_of_lt_le hc1 (by rw [Nat.succ_mul]; exact hx2)
    have e2 : y / tileH h threads = ty :=
      Nat.div_eq_of_lt_le hc3 (by rw [Nat.succ_mul]; exact hy2)
    rw [Prod.mk.injEq]
    exact ⟨e1.symm, e2.symm⟩

/-- Witness for C8: worker count 4 on a 5×3 grid, cell (4,2). -/
theorem C8_tiles_partition_grid_witness :
    (4 : Nat) < 5 ∧ (2 : Nat) < 3 ∧
    ((tileSet 5 3 4).filter
      fun t => cellInTile 5 3 4 t.1 t.2 4 2).card = 1 :=
  ⟨by decide, by decide, C8_tiles_partition_grid 4 5 3 4 2 (by decide)
    (by decide)⟩

theorem stepCell_inert (cfg : Config) (w h : Nat) (dirs : List (Int × Int))
    (x y : Nat) (s : Sim) (h1 : s.grid x y ≠ 1) (h2 : s.grid x y ≠ 2) :
    stepCell cfg w h dirs x y s = s := by
  simp [stepCell, h1, h2]

theorem sharkFish_eatScan (cfg : Config) (b : Int) (hb : 2 ≤ b) :
    ∀ (dirs : List (Int × Int)), (∀ d ∈ dirs, d ∈ baseDirs) →
    (0, 1) ∈ dirs →
    sharkEatScan cfg 4 4 1 1 (b - 1) dirs (simSharkFish b) =
      some (eatRes cfg b) := by
  intro dirs
  induction dirs with
  | nil => intro _ hmem; simp at hmem
  | cons d rest ih =>
      intro hsub hmem
      have hd : d ∈ baseDirs := hsub d (List.mem_cons_self _ _)
      have hb' : ¬(b - 1 ≤ 0) := by omega
      have hrest : ∀ d' ∈ rest, d' ∈ baseDirs :=
        fun d' hd' => hsub d' (List.mem_cons_of_mem _ hd')
      rcases (show d = (-1, 0) ∨ d = (1, 0) ∨ d = (0, -1) ∨ d = (0, 1) from
          by simpa [baseDirs] using hd) with rfl | rfl | rfl | rfl
      · rw [show sharkEatScan cfg 4 4 1 1 (b - 1) ((-1, 0) :: rest)
            (simSharkFish b) =
            sharkEatScan cfg 4 4 1 1 (b - 1) rest (simSharkFish b) from by
          simp only [sharkEatScan]
          rw [if_neg (fun hc => by
            have h0 : (simSharkFish b).grid (wrapAdd 4 1 (-1))
                (wrapAdd 4 1 0) = 0 := rfl
            rw [h0] at hc
            exact absurd hc.1 (by decide))]]
        refine ih hrest ?_
        rcases List.mem_cons.mp hmem with heq | hin
        · exact absurd heq (by decide)
        · exact hin
      · rw [show sharkEatScan cfg 4 4 1 1 (b - 1) ((1, 0) :: rest)
            (simSharkFish b) =
            sharkEatScan cfg 4 4 1 1 (b - 1) rest (simSharkFish b) from by
          simp only [sharkEatScan]
          rw [if_neg (fun hc => by
            have h0 : (simSharkFish b).grid (wrapAdd 4 1 1)
                (wrapAdd 4 1 0) = 0 := rfl
            rw [h0] at hc
            exact absurd hc.1 (by decide))]]
        refine ih hrest ?_
        rcases List.mem_cons.mp hmem with heq | hin
        · exact absurd heq (by decide)
        · exact hin
      · rw [show sharkEatScan cfg 4 4 1 1 (b - 1) ((0, -1) :: rest)
            (simSharkFish b) =
            sharkEatScan cfg 4 4 1 1 (b - 1) rest (simSharkFish b) from by
          simp only [sharkEatScan]
          rw [if_neg (fun hc => by
            have h0 : (simSharkFish b).grid (wrapAdd 4 1 0)
                (wrapAdd 4 1 (-1)) = 0 := rfl
            rw [h0] at hc
            exact absurd hc.1 (by decide))]]
        refine ih hrest ?_
        rcases List.mem_cons.mp hmem with heq | hin
        · exact absurd heq (by decide)
        · exact hin
      · rw [show sharkEatScan cfg 4 4 1 1 (b - 1) ((0, 1) :: rest)
            (simSharkFish b) = some (eatRes cfg b) from by
          simp only [sharkEatScan]
          rw [if_pos ⟨rfl, rfl⟩, if_neg hb']
          rfl]

theorem stepCell_empty0 (cfg : Config) (w h : Nat)
    (dirs : List (Int × Int)) (x y : Nat) (s : Sim)
    (h0 : s.grid x y = 0) : stepCell cfg w h dirs x y s = s := by
  have h1 : s.grid x y ≠ 1 := by rw [h0]; decide
  have h2 : s.grid x y ≠ 2 := by rw [h0]; decide
  exact stepCell_inert cfg w h dirs x y s h1 h2

/-- C3 (amended: the shark's breed timer must be at least 2, i.e. strictly
greater than 1, for no newborn to appear): the eat pass runs first — the
scenario shark at (1,1) with starve timer 1 eats the fish at (1,2)
whatever its scan order, the fish is deleted from the read grid
immediately, and after the tick the shark occupies (1,2) with starve
timer reset to `sharkStarve` and breed timer decremented, (1,1) is Empty,
and every other cell is Empty. -/
theorem C3_shark_eats_fish_first (cfg : Config) (b : Int) (hb : 2 ≤ b)
    (dc : Nat → Nat → List (Int × Int))
    (hsub : ∀ d ∈ dc 1 1, d ∈ baseDirs) (hmem : (0, 1) ∈ dc 1 1) :
    (tick cfg 4 4 dc (simSharkFish b)).grid 1 2 = 2 ∧
    (tick cfg 4 4 dc (simSharkFish b)).starveT 1 2 = cfg.sharkStarve ∧
    (tick cfg 4 4 dc (simSharkFish b)).breedT 1 2 = b - 1 ∧
    (tick cfg 4 4 dc (simSharkFish b)).grid 1 1 = 0 ∧
    (∀ p q : Nat, ¬(p = 1 ∧ q = 2) →
      (tick cfg 4 4 dc (simSharkFish b)).grid p q = 0) := by
  have hstep11 : stepCell cfg 4 4 (dc 1 1) 1 1 (simSharkFish b) =
      eatRes cfg b := by
    have heat := sharkFish_eatScan cfg b hb (dc 1 1) hsub hmem
    have hg : (simSharkFish b).grid 1 1 = 2 := rfl
    have hbt : (simSharkFish b).breedT 1 1 = b := rfl
    simp [stepCell, hg, hbt, heat]
  have hscan : scanCells cfg 4 4 dc (cellList 4 4)
      (clearBuffers (simSharkFish b)) = eatRes cfg b := by
    have hclear : clearBuffers (simSharkFish b) = simSharkFish b := rfl
    rw [show cellList 4 4 = [(0, 0), (0, 1), (0, 2), (0, 3), (1, 0),
      (1, 1), (1, 2), (1, 3), (2, 0), (2, 1), (2, 2), (2, 3), (3, 0),
      (3, 1), (3, 2), (3, 3)] from rfl, hclear]
    simp only [scanCells]
    rw [stepCell_empty0 cfg 4 4 (dc 0 0) 0 0 _ rfl,
      stepCell_empty0 cfg 4 4 (dc 0 1) 0 1 _ rfl,
      stepCell_empty0 cfg 4 4 (dc 0 2) 0 2 _ rfl,
      stepCell_empty0 cfg 4 4 (dc 0 3) 0 3 _ rfl,
      stepCell_empty0 cfg 4 4 (dc 1 0) 1 0 _ rfl,
      hstep11,
      stepCell_empty0 cfg 4 4 (dc 1 2) 1 2 _ rfl,
      stepCell_empty0 cfg 4 4 (dc 1 3) 1 3 _ rfl,
      stepCell_empty0 cfg 4 4 (dc 2 0) 2 0 _ rfl,
      stepCell_empty0 cfg 4 4 (dc 2 1) 2 1 _ rfl,
      stepCell_empty0 cfg 4 4 (dc 2 2) 2 2 _ rfl,
      stepCell_empty0 cfg 4 4 (dc 2 3) 2 3 _ rfl,
      stepCell_empty0 cfg 4 4 (dc 3 0) 3 0 _ rfl,
      stepCell_empty0 cfg 4 4 (dc 3 1) 3 1 _ rfl,
      stepCell_empty0 cfg 4 4 (dc 3 2) 3 2 _ rfl,
      stepCell_empty0 cfg 4 4 (dc 3 3) 3 3 _ rfl]
  have htick : tick cfg 4 4 dc (simSharkFish b) =
      swapBuffers (eatRes cfg b) := by
    rw [← hscan]; rfl
  refine ⟨by rw [htick]; rfl, by rw [htick]; rfl, by rw [htick]; rfl,
    by rw [htick]; rfl, ?_⟩
  intro p q hpq
  rw [htick]
  exact upd2_ne _ _ _ _ _ _ hpq

/-- Counterexample to C3 as stated: with the nonzero shark breed timer 1,
the shark breeds while eating, so (1,1) holds a newborn shark after the
tick instead of being Empty. -/
theorem C3_counterexample :
    (tick cfg0 4 4 dc0 (simSharkFish 1)).grid 1 1 ≠ 0 := by decide

/-- Witness for C3 at breed timer 2, default configuration, unshuffled
scan order. -/
theorem C3_shark_eats_fish_first_witness :
    (2 : Int) ≤ 2 ∧ (∀ d ∈ dc0 1 1, d ∈ baseDirs) ∧ (0, 1) ∈ dc0 1 1 ∧
    ((tick cfg0 4 4 dc0 (simSharkFish 2)).grid 1 2 = 2 ∧
    (tick cfg0 4 4 dc0 (simSharkFish 2)).starveT 1 2 = cfg0.sharkStarve ∧
    (tick cfg0 4 4 dc0 (simSharkFish 2)).breedT 1 2 = 2 - 1 ∧
    (tick cfg0 4 4 dc0 (simSharkFish 2)).grid 1 1 = 0 ∧
    (∀ p q : Nat, ¬(p = 1 ∧ q = 2) →
      (tick cfg0 4 4 dc0 (simSharkFish 2)).grid p q = 0)) :=
  ⟨by decide, by decide, by decide,
    C3_shark_eats_fish_first cfg0 2 (by decide) dc0 (by decide) (by decide)⟩

theorem mem_cellList (w h a b : Nat) :
    (a, b) ∈ cellList w h ↔ a < w ∧ b < h := by
  simp [cellList]

theorem nodup_cellList (w h : Nat) : (cellList w h).Nodup := by
  have he : cellList w h = (List.range w) ×ˢ (List.range h) := rfl
  rw [he]
  exact List.Nodup.product (List.nodup_range w) (List.nodup_range h)

theorem countP_flip {α : Type} (a : α) (p p' : α → Bool) :
    ∀ (l : List α), l.Nodup → a ∈ l →
      (∀ x ∈ l, x ≠ a → p' x = p x) → p a = false → p' a = true →
      l.countP p' = l.countP p + 1 := by
  intro l
  induction l with
  | nil => intro _ ha; simp at ha
  | cons c t ih =>
      intro hnd hmem hag hpa hpa'
      rcases List.mem_cons.mp hmem with rfl | hat
      · have hna : a ∉ t := (List.nodup_cons.mp hnd).1
        have ht : t.countP p' = t.countP p :=
          List.countP_congr fun x hx => by
            rw [hag x (List.mem_cons_of_mem _ hx)
              (fun hxa => hna (hxa ▸ hx))]
        rw [List.countP_cons, List.countP_cons, ht, hpa, hpa']
        simp
      · have hca : c ≠ a := fun hc =>
          (List.nodup_cons.mp hnd).1 (hc ▸ hat)
        rw [List.countP_cons, List.countP_cons,
          ih (List.nodup_cons.mp hnd).2 hat
            (fun x hx hxa => hag x (List.mem_cons_of_mem _ hx) hxa) hpa hpa',
          hag c (List.mem_cons_self _ _) hca]
        omega

theorem countCells_placeWrite_self (w h : Nat) (v : Nat) (hv : v ≠ 0)
    (bt : Int) (st : Option Int) (pk : Nat × Nat) (s : Sim)
    (hin : pk.1 < w ∧ pk.2 < h) (hempty : s.grid pk.1 pk.2 = 0) :
    countCells w h (placeWrite v bt st pk s) v = countCells w h s v + 1 := by
  refine countP_flip pk _ _ (cellList w h) (nodup_cellList w h)
    ((mem_cellList w h pk.1 pk.2).mpr hin) ?_ ?_ ?_
  · intro x hx hxa
    have hne : ¬(x.1 = pk.1 ∧ x.2 = pk.2) := by
      rintro ⟨h1, h2⟩
      exact hxa (Prod.ext h1 h2)
    simp only [placeWrite, upd2_ne _ _ _ _ _ _ hne]
  · simp only [hempty]
    simp [Ne.symm hv]
  · simp [placeWrite, upd2_self]

theorem countCells_placeWrite_other (w h : Nat) (v u : Nat) (hu : u ≠ 0)
    (huv : u ≠ v) (bt : Int) (st : Option Int) (pk : Nat × Nat) (s : Sim)
    (hempty : s.grid pk.1 pk.2 = 0) :
    countCells w h (placeWrite v bt st pk s) u = countCells w h s u := by
  refine List.countP_congr fun x hx => ?_
  simp only [decide_eq_true_eq]
  by_cases hxa : x.1 = pk.1 ∧ x.2 = pk.2
  · obtain ⟨h1, h2⟩ := hxa
    have hg1 : (placeWrite v bt st pk s).grid x.1 x.2 = v := by
      rw [h1, h2]; exact upd2_self _ _ _ _
    have hg2 : s.grid x.1 x.2 = 0 := by rw [h1, h2]; exact hempty
    rw [hg1, hg2]
    constructor
    · intro hc; exact absurd hc.symm huv
    · intro hc; exact absurd hc.symm hu
  · rw [show (placeWrite v bt st pk s).grid x.1 x.2 = s.grid x.1 x.2 from
      upd2_ne _ _ _ _ _ _ hxa]

theorem countCells_clearWorld (w h : Nat) (u : Nat) (hu : u ≠ 0)
    (s : Sim) : countCells w h (clearWorld s) u = 0 := by
  rw [countCells, List.countP_eq_zero]
  intro p _
  simp [clearWorld, Ne.symm hu]

theorem placeLoop_count (w h : Nat) (v : Nat) (hv : v ≠ 0) (bt : Int)
    (st : Option Int) :
    ∀ (picks : List (Nat × Nat)) (need : Nat) (s s' : Sim)
      (rest : List (Nat × Nat)),
      (∀ p ∈ picks, p.1 < w ∧ p.2 < h) →
      placeLoop v bt st need picks s = some (s', rest) →
      countCells w h s' v = countCells w h s v + need ∧
      (∀ u, u ≠ 0 → u ≠ v → countCells w h s' u = countCells w h s u) ∧
      (∀ p ∈ rest, p ∈ picks) := by
  intro picks
  induction picks with
  | nil =>
      intro need s s' rest _ hpl
      cases need with
      | zero =>
          obtain ⟨rfl, rfl⟩ : s = s' ∧ ([] : List (Nat × Nat)) = rest := by
            simpa [placeLoop] using hpl
          exact ⟨rfl, fun _ _ _ => rfl, fun p hp => hp⟩
      | succ n => simp [placeLoop] at hpl
  | cons pk rest' ih =>
      intro need s s' rest hin hpl
      have hin' : ∀ p ∈ rest', p.1 < w ∧ p.2 < h :=
        fun p hp => hin p (List.mem_cons_of_mem _ hp)
      cases need with
      | zero =>
          obtain ⟨rfl, rfl⟩ : s = s' ∧ pk :: rest' = rest := by
            simpa [placeLoop] using hpl
          exact ⟨rfl, fun _ _ _ => rfl, fun p hp => hp⟩
      | succ n =>
          by_cases hempty : s.grid pk.1 pk.2 = 0
          · rw [show placeLoop v bt st (n + 1) (pk :: rest') s =
                placeLoop v bt st n rest' (placeWrite v bt st pk s) from
                by simp [placeLoop, hempty]] at hpl
            obtain ⟨hc1, hc2, hc3⟩ := ih n (placeWrite v bt st pk s) s'
              rest hin' hpl
            refine ⟨?_, ?_, fun p hp => List.mem_cons_of_mem _ (hc3 p hp)⟩
            · rw [hc1, countCells_placeWrite_self w h v hv bt st pk s
                (hin pk (List.mem_cons_self _ _)) hempty]
              omega
            · intro u hu huv
              rw [hc2 u hu huv,
                countCells_placeWrite_other w h v u hu huv bt st pk s hempty]
          · rw [show placeLoop v bt st (n + 1) (pk :: rest') s =
                placeLoop v bt st (n + 1) rest' s from
                by simp [placeLoop, hempty]] at hpl
            obtain ⟨hc1, hc2, hc3⟩ := ih (n + 1) s s' rest hin' hpl
            exact ⟨hc1, hc2, fun p hp => List.mem_cons_of_mem _ (hc3 p hp)⟩

theorem placeLoop_cells (v : Nat) (hv : v ≠ 0) (bt : Int)
    (st : Option Int) :
    ∀ (picks : List (Nat × Nat)) (need : Nat) (s s' : Sim)
      (rest : List (Nat × Nat)),
      placeLoop v bt st need picks s = some (s', rest) →
      ∀ a b : Nat,
        (s'.grid a b = s.grid a b ∧ s'.breedT a b = s.breedT a b ∧
          s'.starveT a b = s.starveT a b) ∨
        (s.grid a b = 0 ∧ s'.grid a b = v ∧ s'.breedT a b = bt ∧
          (∀ stv : Int, st = some stv → s'.starveT a b = stv)) := by
  intro picks
  induction picks with
  | nil =>
      intro need s s' rest hpl a b
      cases need with
      | zero =>
          obtain ⟨rfl, rfl⟩ : s = s' ∧ ([] : List (Nat × Nat)) = rest := by
            simpa [placeLoop] using hpl
          exact Or.inl ⟨rfl, rfl, rfl⟩
      | succ n => simp [placeLoop] at hpl
  | cons pk rest' ih =>
      intro need s s' rest hpl a b
      cases need with
      | zero =>
          obtain ⟨rfl, rfl⟩ : s = s' ∧ pk :: rest' = rest := by
            simpa [placeLoop] using hpl
          exact Or.inl ⟨rfl, rfl, rfl⟩
      | succ n =>
          by_cases hempty : s.grid pk.1 pk.2 = 0
          · rw [show placeLoop v bt st (n + 1) (pk :: rest') s =
                placeLoop v bt st n rest' (placeWrite v bt st pk s) from
                by simp [placeLoop, hempty]] at hpl
            have hdi := ih n (placeWrite v bt st pk s) s' rest hpl a b
            by_cases hab : a = pk.1 ∧ b = pk.2
            · obtain ⟨rfl, rfl⟩ := hab
              right
              rcases hdi with ⟨hg, hbt, hst⟩ | ⟨hg0, hg, hbt, hst⟩
              · refine ⟨hempty, ?_, ?_, ?_⟩
                · rw [hg]; exact upd2_self _ _ _ _
                · rw [hbt]; exact upd2_self _ _ _ _
                · intro stv hstv
                  rw [hst]
                  subst hstv
                  exact upd2_self _ _ _ _
              · rw [show (placeWrite v bt st pk s).grid pk.1 pk.2 = v from
                  upd2_self _ _ _ _] at hg0
                exact absurd hg0 hv
            · rcases hdi with ⟨hg, hbt, hst⟩ | ⟨hg0, hg, hbt, hst⟩
              · left
                refine ⟨?_, ?_, ?_⟩
                · rw [hg]; exact upd2_ne _ _ _ _ _ _ hab
                · rw [hbt]; exact upd2_ne _ _ _ _ _ _ hab
                · rw [hst]
                  cases st with
                  | none => rfl
                  | some stv => exact upd2_ne _ _ _ _ _ _ hab
              · right
                refine ⟨?_, hg, hbt, hst⟩
                rw [show (placeWrite v bt st pk s).grid a b = s.grid a b
                  from upd2_ne _ _ _ _ _ _ hab] at hg0
                exact hg0
          · rw [show placeLoop v bt st (n + 1) (pk :: rest') s =
                placeLoop v bt st (n + 1) rest' s from
                by simp [placeLoop, hempty]] at hpl
            exact ih (n + 1) s s' rest hpl a b

/-- Counterexample to C6 as stated: with the negative count `numFish = -1`
(and zero sharks), `initWorld` raises no fatal error — it completes
normally and produces a full (all-Empty) world, because the code contains
no validation of the configured counts at all. -/
theorem C6_counterexample :
    initWorldModel cfg0 (-1) 0 [] simFish22 = some (clearWorld simFish22) :=
  rfl

/-- C6 (amended): `initWorld` validates nothing.  Whenever it completes,
it has placed exactly `numFish.toNat` fish (so negative counts place
nothing) and `numShark.toNat` sharks at distinct cells by rejection
sampling, each fish with breed timer `fishBreed` and each shark with
timers `sharkBreed` and `sharkStarve`; populations exceeding the grid
capacity simply make the rejection loop retry forever, producing neither
a world nor an error. -/
theorem C6_initWorld_no_validation (cfg : Config) (w h : Nat)
    (nf ns : Int) (picks : List (Nat × Nat)) (s sOut : Sim)
    (hin : ∀ p ∈ picks, p.1 < w ∧ p.2 < h)
    (hinit : initWorldModel cfg nf ns picks s = some sOut) :
    countCells w h sOut 1 = nf.toNat ∧
    countCells w h sOut 2 = ns.toNat ∧
    (∀ a b : Nat, (sOut.grid a b = 1 → sOut.breedT a b = cfg.fishBreed) ∧
      (sOut.grid a b = 2 → sOut.breedT a b = cfg.sharkBreed ∧
        sOut.starveT a b = cfg.sharkStarve)) := by
  rcases hpl1 : placeLoop 1 cfg.fishBreed none nf.toNat picks
      (clearWorld s) with _ | ⟨sA, restA⟩
  · rw [show initWorldModel cfg nf ns picks s = none from by
      simp [initWorldModel, hpl1]] at hinit
    exact absurd hinit (by simp)
  · rcases hpl2 : placeLoop 2 cfg.sharkBreed (some cfg.sharkStarve)
        ns.toNat restA sA with _ | ⟨sB, restB⟩
    · rw [show initWorldModel cfg nf ns picks s = none from by
        simp [initWorldModel, hpl1, hpl2]] at hinit
      exact absurd hinit (by simp)
    · have hout : sOut = sB := by
        have he : initWorldModel cfg nf ns picks s = some sB := by
          simp [initWorldModel, hpl1, hpl2]
        rw [he] at hinit
        exact (Option.some.inj hinit).symm
      subst hout
      obtain ⟨hf1, hf2, hf3⟩ := placeLoop_count w h 1 (by decide)
        cfg.fishBreed none picks nf.toNat (clearWorld s) sA restA hin hpl1
      have hinA : ∀ p ∈ restA, p.1 < w ∧ p.2 < h :=
        fun p hp => hin p (hf3 p hp)
      obtain ⟨hs1, hs2, hs3⟩ := placeLoop_count w h 2 (by decide)
        cfg.sharkBreed (some cfg.sharkStarve) restA ns.toNat sA sOut restB
        hinA hpl2
      refine ⟨?_, ?_, ?_⟩
      · rw [hs2 1 (by decide) (by decide), hf1,
          countCells_clearWorld w h 1 (by decide) s]
        omega
      · rw [hs1, hf2 2 (by decide) (by decide),
          countCells_clearWorld w h 2 (by decide) s]
        omega
      · intro a b
        have hdA := placeLoop_cells 1 (by decide) cfg.fishBreed none picks
          nf.toNat (clearWorld s) sA restA hpl1 a b
        have hdB := placeLoop_cells 2 (by decide) cfg.sharkBreed
          (some cfg.sharkStarve) restA ns.toNat sA sOut restB hpl2 a b
        constructor
        · intro hg1
          rcases hdB with ⟨hbg, hbb, _⟩ | ⟨_, hbg, _, _⟩
          · rcases hdA with ⟨hag, _, _⟩ | ⟨_, _, hab2, _⟩
            · exfalso
              rw [hbg, hag] at hg1
              simp [clearWorld] at hg1
            · rw [hbb, hab2]
          · exfalso
            rw [hbg] at hg1
            exact absurd hg1 (by decide)
        · intro hg2
          rcases hdB with ⟨hbg, hbb, hbs⟩ | ⟨_, hbg, hbb, hbs⟩
          · rcases hdA with ⟨hag, _, _⟩ | ⟨_, hag, _, _⟩
            · exfalso
              rw [hbg, hag] at hg2
              simp [clearWorld] at hg2
            · exfalso
              rw [hbg, hag] at hg2
              exact absurd hg2 (by decide)
          · exact ⟨hbb, hbs cfg.sharkStarve rfl⟩

/-- Witness for C6 (amended) on a 2×2 grid with one fish and one shark. -/
theorem C6_initWorld_no_validation_witness :
    (∀ p ∈ [((0 : Nat), (0 : Nat)), (1, 1)], p.1 < 2 ∧ p.2 < 2) ∧
    initWorldModel cfg0 1 1 [(0, 0), (1, 1)] simFish22 = some s1w ∧
    (countCells 2 2 s1w 1 = (1 : Int).toNat ∧
    countCells 2 2 s1w 2 = (1 : Int).toNat ∧
    (∀ a b : Nat, (s1w.grid a b = 1 → s1w.breedT a b = cfg0.fishBreed) ∧
      (s1w.grid a b = 2 → s1w.breedT a b = cfg0.sharkBreed ∧
        s1w.starveT a b = cfg0.sharkStarve))) :=
  ⟨by decide, rfl,
    C6_initWorld_no_validation cfg0 2 2 1 1 [(0, 0), (1, 1)] simFish22 s1w
      (by decide) rfl⟩
